import Mathlib

set_option maxHeartbeats 1000000

/-
Verification development for the twvid bot (src/main.py).

Texts are modelled as lists of characters (`Str`).  The regex-based
extraction in `extract_tweet_ids` is embedded as an explicit backtracking
matcher for the concrete pattern
`(?:twitter|x)\.com/.{1,15}/(?:web|status(?:es)?)/([0-9]{1,20})`,
with Python `re.findall` semantics: scan left to right, at each position
attempt a leftmost greedy match; on success record the capture group and
resume after the match, otherwise advance one character.
-/

namespace Twvid

abbrev Str := List Char

/-- Strip an exact literal prefix from a character list, returning the rest,
mirroring how a literal part of the regex consumes input. -/
def stripPre : Str → Str → Option Str
  | [], s => some s
  | _ :: _, [] => none
  | p :: ps, c :: cs => if p = c then stripPre ps cs else none

/-- Consume exactly `k` characters, each of which may be any character other
than a newline (regex `.`), returning the remainder. -/
def dotSpan : Nat → Str → Option Str
  | 0, s => some s
  | _ + 1, [] => none
  | k + 1, c :: rest => if c = '\n' then none else dotSpan k rest

/-- Greedily take up to `n` leading ASCII digits (regex `[0-9]{1,n}` with
nothing following the group, so no backtracking is needed). -/
def takeDigitsUpTo : Nat → Str → Str × Str
  | 0, s => ([], s)
  | _ + 1, [] => ([], [])
  | n + 1, c :: rest =>
    if c.isDigit then
      let p := takeDigitsUpTo n rest
      (c :: p.1, p.2)
    else ([], c :: rest)

/-- Match the capture group `([0-9]{1,20})`: at least one digit, greedily up
to twenty.  Returns the captured digits and the number of characters consumed. -/
def tryDigits (s : Str) : Option (Str × Nat) :=
  let p := takeDigitsUpTo 20 s
  if p.1.isEmpty then none else some (p.1, p.1.length)

def webSlash : Str := 'w' :: 'e' :: 'b' :: '/' :: []

def statusesSlash : Str := 's' :: 't' :: 'a' :: 't' :: 'u' :: 's' :: 'e' :: 's' :: '/' :: []

def statusSlash : Str := 's' :: 't' :: 'a' :: 't' :: 'u' :: 's' :: '/' :: []

/-- Third alternative of `(?:web|status(?:es)?)/` followed by the digits. -/
def tryAlt3 (r : Str) : Option (Str × Nat) :=
  match stripPre statusSlash r with
  | some r2 => (tryDigits r2).map fun dn => (dn.1, 7 + dn.2)
  | none => none

/-- Second alternative (`statuses/`, tried before `status/` because the inner
`(?:es)?` is greedy), falling back to the third on failure. -/
def tryAlt2 (r : Str) : Option (Str × Nat) :=
  match stripPre statusesSlash r with
  | some r2 =>
    match tryDigits r2 with
    | some dn => some (dn.1, 9 + dn.2)
    | none => tryAlt3 r
  | none => tryAlt3 r

/-- The alternation `(?:web|status(?:es)?)/([0-9]{1,20})` with Python's
left-to-right backtracking order: `web`, then `statuses`, then `status`. -/
def tryAlt (r : Str) : Option (Str × Nat) :=
  match stripPre webSlash r with
  | some r2 =>
    match tryDigits r2 with
    | some dn => some (dn.1, 4 + dn.2)
    | none => tryAlt2 r
  | none => tryAlt2 r

/-- The literal `/` separating the 1-15 character middle from the path form,
then the alternation and digits. -/
def tryForm : Str → Option (Str × Nat)
  | [] => none
  | c :: r => if c = '/' then (tryAlt r).map fun dn => (dn.1, 1 + dn.2) else none

/-- Greedy `.{1,15}` followed by the rest of the pattern: try span lengths
from `k` down to 1, as a backtracking engine does. -/
def tryMid (s : Str) : Nat → Option (Str × Nat)
  | 0 => none
  | k + 1 =>
    match dotSpan (k + 1) s with
    | some rest =>
      match tryForm rest with
      | some dn => some (dn.1, (k + 1) + dn.2)
      | none => tryMid s k
    | none => tryMid s k

def twitterHost : Str :=
  't' :: 'w' :: 'i' :: 't' :: 't' :: 'e' :: 'r' :: '.' :: 'c' :: 'o' :: 'm' :: '/' :: []

def xHost : Str := 'x' :: '.' :: 'c' :: 'o' :: 'm' :: '/' :: []

/-- Attempt the whole tweet-link pattern at the start of `s`.  On success
return the captured digit group and the total number of characters matched. -/
def matchFrom (s : Str) : Option (Str × Nat) :=
  match stripPre twitterHost s with
  | some rest => (tryMid rest 15).map fun dn => (dn.1, 12 + dn.2)
  | none =>
    match stripPre xHost s with
    | some rest => (tryMid rest 15).map fun dn => (dn.1, 6 + dn.2)
    | none => none

/-- One scan step of `re.findall`: fuelled so that the definition is
structurally recursive and computable by `decide`/`rfl`. -/
def findAllFuel : Nat → Str → List Str
  | 0, _ => []
  | _ + 1, [] => []
  | fuel + 1, c :: rest =>
    match matchFrom (c :: rest) with
    | some dn => dn.1 :: findAllFuel fuel (List.drop dn.2 (c :: rest))
    | none => findAllFuel fuel rest

/-- All captures of the tweet-id pattern in `s`, in scan order
(`re.findall` on the pattern of src/main.py line 45). -/
def findAll (s : Str) : List Str := findAllFuel s.length s

def tcoHost : Str := 't' :: '.' :: 'c' :: 'o' :: '/' :: []

/-- Maximal run of `[a-zA-Z0-9]` characters. -/
def alnumRun : Str → Str × Str
  | [] => ([], [])
  | c :: rest =>
    if c.isAlpha || c.isDigit then
      let p := alnumRun rest
      (c :: p.1, p.2)
    else ([], c :: rest)

/-- Attempt the pattern `t\.co\/[a-zA-Z0-9]+` at the start of `s`; the whole
match (not a group) is returned together with its length. -/
def tcoMatch (s : Str) : Option (Str × Nat) :=
  match stripPre tcoHost s with
  | some rest =>
    let p := alnumRun rest
    if p.1.isEmpty then none else some (tcoHost ++ p.1, 5 + p.1.length)
  | none => none

/-- Fuelled `re.findall` for the `t.co` short-link pattern. -/
def tcoFindAllFuel : Nat → Str → List Str
  | 0, _ => []
  | _ + 1, [] => []
  | fuel + 1, c :: rest =>
    match tcoMatch (c :: rest) with
    | some dn => dn.1 :: tcoFindAllFuel fuel (List.drop dn.2 (c :: rest))
    | none => tcoFindAllFuel fuel rest

/-- Order-preserving deduplication keeping the first occurrence of each
element, as `list(dict.fromkeys(...))` does in the source. -/
def dedupAux (seen : List Str) : List Str → List Str
  | [] => []
  | x :: xs => if x ∈ seen then dedupAux seen xs else x :: dedupAux (x :: seen) xs

def dedupFirst (l : List Str) : List Str := dedupAux [] l

/-- Model of `extract_tweet_ids` (src/main.py lines 30-47).  `resolve` is the
network environment resolving a matched `t.co` link to its final URL text
(`requests.get('https://' + link).url`); a `none` result models the caught
unshortening failure, which skips the link.  The unshortened links are
accumulated with a `'\n'` prefix each and appended to the original text
before the id pattern is applied; the id list is deduplicated preserving
first appearance and an empty result is returned as `none`. -/
def extract_tweet_ids (resolve : Str → Option Str) (text : Str) : Option (List Str) :=
  let links := tcoFindAllFuel text.length text
  let unshortened := links.foldl
    (fun acc l => match resolve l with
      | some u => acc ++ '\n' :: u
      | none => acc) []
  let ids := findAll (text ++ unshortened)
  let ids2 := dedupFirst ids
  if ids2.isEmpty then none else some ids2

/-! ### Error-page meta tag scan (scrape_media, src/main.py line 56) -/

def metaOpen : Str := "<meta content=\"".toList

def metaClose : Str := "\" property=\"og:description\" />".toList

/-- Lazy `(.*?)` of the meta-tag pattern: accumulate content characters
until the closing literal matches, trying the shortest content first; the
dot does not match a newline. -/
def metaContent : Str → Option Str
  | [] => none
  | c :: rest =>
    if metaClose.isPrefixOf (c :: rest) then some []
    else if c = '\n' then none
    else (metaContent rest).map fun t => c :: t

/-- Model of `re.search(r'<meta content="(.*?)" property="og:description" />', body)`:
scan for the leftmost position where the whole pattern matches and return
the (lazy, hence shortest) capture group. -/
def metaSearch : Str → Option Str
  | [] => none
  | c :: rest =>
    if metaOpen.isPrefixOf (c :: rest) then
      match metaContent (List.drop metaOpen.length (c :: rest)) with
      | some content => some content
      | none => metaSearch rest
    else metaSearch rest

/-! ### Data model of the pipeline -/

/-- One entry of the scrape API's `media_extended` list; the source reads
the `type` and `url` string fields of each dict. -/
structure MediaItem where
  mtype : Str
  url : Str
deriving DecidableEq

def imageT : Str := 'i' :: 'm' :: 'a' :: 'g' :: 'e' :: []

def gifT : Str := 'g' :: 'i' :: 'f' :: []

def videoT : Str := 'v' :: 'i' :: 'd' :: 'e' :: 'o' :: []

/-- Outcome of the HEAD probe on the rewritten photo URL
(`requests.head(new_url).raise_for_status()`): success, an HTTP error
status, or a connection-level failure. -/
inductive HeadResult | ok | httpErr | connErr
deriving DecidableEq

/-- Outcome of a messaging-sink send operation; `badRequest` models
`telegram.error.BadRequest` being raised by the call. -/
inductive SinkResult | ok | badRequest
deriving DecidableEq

/-- Outcome of the streaming GET for a video
(`requests.get(video_url, stream=True)` + `raise_for_status()` + the
`Content-Length` header): the header value is `none` when absent
(a `KeyError` in the source). -/
inductive FetchResult | connErr | httpErr | ok (contentLength : Option Nat)
deriving DecidableEq

/-- Body of the scrape API response for one tweet id: a non-2xx status, a
JSON body (with the optional `media_extended` and `text` fields), or a
non-JSON raw body. -/
inductive ScrapeResponse
  | httpErr
  | jsonBody (mediaExtended : Option (List MediaItem)) (text : Option Str)
  | rawBody (body : Str)
deriving DecidableEq

/-- Python exceptions relevant to the handlers of the source: the classes
caught in `reply_videos`' tuple and in `reply_photos`, plus the scrape-side
`JSONDecodeError` and `APIException`. -/
inductive PyErr
  | httpError
  | connError
  | keyError
  | badRequest
  | jsonDecodeError
  | apiError (msg : Str)
deriving DecidableEq

/-- The network and messaging environment one message handling runs
against.  Each field gives the outcome of the corresponding external call,
keyed by its argument. -/
structure Env where
  resolve : Str → Option Str
  scrape : Str → ScrapeResponse
  unescape : Str → Str
  headReq : Str → HeadResult
  sendMediaGroup : List (Str × Option Str) → SinkResult
  sendAnimation : Str → SinkResult
  videoFetch : Str → FetchResult
  sendVideo : Str → SinkResult
  sendVideoUpload : Str → SinkResult

/-- Successful operations performed against the messaging sink, in order.
A failed send produces no event; the source's fallbacks appear as the
dedicated text-message constructors. -/
inductive Event
  | mediaGroup (items : List (Str × Option Str))
  | animation (url : Str) (caption : Str)
  | videoDirect (url : Str) (caption : Str)
  | uploadNotice
  | videoUpload (caption : Str)
  | deleteNotice
  | videoError (url : Str) (caption : Str)
  | videoTooLarge (url : Str) (caption : Str)
  | noMedia (id : Str) (caption : Str)
  | scrapeErrorMsg (id : Str) (msg : Str)
  | handleError (id : Str)
  | noSupportedLink
  | noSupportedMedia
deriving DecidableEq

/-- Result of one dispatcher routine: the sink events it performed, the
amount added to the `media_downloaded` counter, and the exception that
escaped it, if any. -/
structure DispatchResult where
  events : List Event
  counter : Nat
  error : Option PyErr
deriving DecidableEq

/-! ### Scrape client (src/main.py lines 49-58) -/

def apiErrPre : Str := "API returned error: ".toList

/-- Model of `scrape_media`: a non-2xx response raises `requests.HTTPError`;
a JSON body yields `(data['media_extended'], data.get('text', ''))` (a
missing `media_extended` key raises `KeyError`); a non-JSON body is scanned
for the `og:description` meta tag, whose HTML-entity-decoded content is
wrapped in `APIException('API returned error: ...')`, and otherwise the
`JSONDecodeError` propagates. -/
def scrape_media (env : Env) (id : Str) : Except PyErr (List MediaItem × Str) :=
  match env.scrape id with
  | .httpErr => .error .httpError
  | .jsonBody mediaExt txtOpt =>
    match mediaExt with
    | some media => .ok (media, txtOpt.getD [])
    | none => .error .keyError
  | .rawBody body =>
    match metaSearch body with
    | some content => .error (.apiError (apiErrPre ++ env.unescape content))
    | none => .error .jsonDecodeError

/-! ### Delivery dispatcher (src/main.py lines 60-139) -/

/-- Split a character list at the first occurrence of `ch`, if any. -/
def splitAtFirst (ch : Char) : Str → Option (Str × Str)
  | [] => none
  | c :: rest =>
    if c = ch then some ([], rest)
    else (splitAtFirst ch rest).map fun p => (c :: p.1, p.2)

def origQuery : Str := "format=jpg&name=orig".toList

/-- Model of `urlsplit(photo_url)._replace(query='format=jpg&name=orig').geturl()`:
the query component (between the first `?` of the non-fragment part and the
fragment) is replaced by `format=jpg&name=orig`, keeping any fragment. -/
def setOrigQuery (url : Str) : Str :=
  match splitAtFirst '#' url with
  | some pf =>
    (match splitAtFirst '?' pf.1 with
     | some bq => bq.1
     | none => pf.1) ++ '?' :: origQuery ++ '#' :: pf.2
  | none =>
    (match splitAtFirst '?' url with
     | some bq => bq.1
     | none => url) ++ '?' :: origQuery

/-- The photo-group loop of `reply_photos`: for the photo at index `i`, the
URL is rewritten to original quality and probed with a HEAD request; an HTTP
error status falls back to the unchanged original URL, while a
connection-level probe failure is not caught and escapes.  Only the item at
index 0 carries the truncated caption. -/
def buildPhotoGroup (env : Env) (photos : List MediaItem) (cap : Str) (i : Nat) :
    Except PyErr (List (Str × Option Str)) :=
  match photos with
  | [] => .ok []
  | p :: rest =>
    match env.headReq (setOrigQuery p.url) with
    | .ok => (buildPhotoGroup env rest cap (i + 1)).map
        fun g => (setOrigQuery p.url, if i = 0 then some cap else none) :: g
    | .httpErr => (buildPhotoGroup env rest cap (i + 1)).map
        fun g => (p.url, if i = 0 then some cap else none) :: g
    | .connErr => .error .connError

/-- Model of `reply_photos`: build the group, send it as one media-group
call, and on success add the group length to `media_downloaded`.  An
escaping exception (from the probe or from the group send) yields no event
and no counter change. -/
def reply_photos (env : Env) (photos : List MediaItem) (txt : Str) : DispatchResult :=
  match buildPhotoGroup env photos (txt.take 1024) 0 with
  | .error e => ⟨[], 0, some e⟩
  | .ok group =>
    match env.sendMediaGroup group with
    | .ok => ⟨[.mediaGroup group], group.length, none⟩
    | .badRequest => ⟨[], 0, some .badRequest⟩

/-- Model of `reply_gifs`: each gif is sent independently with the truncated
caption and counted on success; a sink failure escapes uncaught, keeping
the events and count of the gifs already sent. -/
def reply_gifs (env : Env) (gifs : List MediaItem) (txt : Str) : DispatchResult :=
  match gifs with
  | [] => ⟨[], 0, none⟩
  | g :: rest =>
    match env.sendAnimation g.url with
    | .ok =>
      let r := reply_gifs env rest txt
      ⟨.animation g.url (txt.take 1024) :: r.events, 1 + r.counter, r.error⟩
    | .badRequest => ⟨[], 0, some .badRequest⟩

/-- Value of `telegram.constants.MAX_FILESIZE_DOWNLOAD` (20 MB). -/
def MAX_FILESIZE_DOWNLOAD : Nat := 20000000

/-- Value of `telegram.constants.MAX_FILESIZE_UPLOAD` (50 MB). -/
def MAX_FILESIZE_UPLOAD : Nat := 50000000

/-- The delivery tier chosen for a measured video size, following the
`if (video_size := ...) <= MAX_FILESIZE_DOWNLOAD / elif <= MAX_FILESIZE_UPLOAD / else`
chain of `reply_videos`. -/
inductive Tier | download | upload | linkOnly
deriving DecidableEq

def videoTier (s : Nat) : Tier :=
  if s ≤ MAX_FILESIZE_DOWNLOAD then .download
  else if s ≤ MAX_FILESIZE_UPLOAD then .upload
  else .linkOnly

/-- The body of `reply_videos`' per-video loop: probe the size with a
streaming GET, pick the tier, and on any caught failure (HTTP error,
connection error, missing `Content-Length`, sink `BadRequest`) fall back to
a text message with the direct link.  In the upload tier the "please wait"
notice precedes the upload and is deleted only after a successful upload. -/
def videoOnce (env : Env) (url : Str) (txt : Str) : List Event :=
  match env.videoFetch url with
  | .connErr => [.videoError url (txt.take 1024)]
  | .httpErr => [.videoError url (txt.take 1024)]
  | .ok none => [.videoError url (txt.take 1024)]
  | .ok (some size) =>
    match videoTier size with
    | .download =>
      match env.sendVideo url with
      | .ok => [.videoDirect url (txt.take 1024)]
      | .badRequest => [.videoError url (txt.take 1024)]
    | .upload =>
      match env.sendVideoUpload url with
      | .ok => [.uploadNotice, .videoUpload (txt.take 1024), .deleteNotice]
      | .badRequest => [.uploadNotice, .videoError url (txt.take 1024)]
    | .linkOnly => [.videoTooLarge url (txt.take 1024)]

/-- Model of `reply_videos`: every video is attempted in order and
`media_downloaded` is incremented once per video after its try/except
block, whether or not the delivery degraded to the text fallback. -/
def reply_videos (env : Env) (videos : List MediaItem) (txt : Str) : DispatchResult :=
  match videos with
  | [] => ⟨[], 0, none⟩
  | v :: rest =>
    let r := reply_videos env rest txt
    ⟨videoOnce env v.url txt ++ r.events, 1 + r.counter, r.error⟩

/-- The bucket partition at the top of `reply_media`: three list
comprehensions filtering on the `type` field. -/
def classify (tweet_media : List MediaItem) :
    List MediaItem × List MediaItem × List MediaItem :=
  (tweet_media.filter fun m => m.mtype = imageT,
   tweet_media.filter fun m => m.mtype = gifT,
   tweet_media.filter fun m => m.mtype = videoT)

deriving instance DecidableEq for Except

/-- Result of `reply_media`: events, counter delta, and either the returned
boolean or the exception that escaped. -/
structure MediaReply where
  events : List Event
  counter : Nat
  result : Except PyErr Bool
deriving DecidableEq

/-- The `if photos: reply_photos(...)` step of `reply_media`. -/
def photosDispatch (env : Env) (photos : List MediaItem) (txt : Str) : DispatchResult :=
  if photos.isEmpty then ⟨[], 0, none⟩ else reply_photos env photos txt

/-- The `if gifs: ... elif videos: ...` step of `reply_media`. -/
def bucketDispatch (env : Env) (gifs videos : List MediaItem) (txt : Str) : DispatchResult :=
  if !gifs.isEmpty then reply_gifs env gifs txt
  else if !videos.isEmpty then reply_videos env videos txt
  else ⟨[], 0, none⟩

/-- Model of `reply_media` (src/main.py lines 60-71): photos are sent if
present; then gifs if present, else videos if present; the return value is
`bool(photos or gifs or videos)`.  An exception escaping one of the callees
propagates immediately, keeping the events performed so far. -/
def reply_media (env : Env) (tweet_media : List MediaItem) (txt : Str) : MediaReply :=
  let c := classify tweet_media
  let r1 := photosDispatch env c.1 txt
  match r1.error with
  | some e => ⟨r1.events, r1.counter, .error e⟩
  | none =>
    let r2 := bucketDispatch env c.2.1 c.2.2 txt
    ⟨r1.events ++ r2.events, r1.counter + r2.counter,
     match r2.error with
     | some e => .error e
     | none => .ok (!c.1.isEmpty || !c.2.1.isEmpty || !c.2.2.isEmpty)⟩

/-! ### Pipeline orchestrator (src/main.py lines 219-258) -/

/-- Accumulated state of `handle_message`'s per-id loop. -/
structure LoopState where
  events : List Event
  counter : Nat
  foundTweets : Bool
  foundMedia : Bool
deriving DecidableEq

/-- One iteration of the loop over tweet ids: scrape, then either reply
with media, send the "has no media" message, or report the error.
`APIException` is reported with its message; any other exception (from the
scrape or escaping `reply_media`) is reported as a generic per-id error. -/
def handleOne (env : Env) (st : LoopState) (id : Str) : LoopState :=
  match scrape_media env id with
  | .ok p =>
    if p.1.isEmpty then
      { st with events := st.events ++ [.noMedia id (p.2.take 1024)], foundTweets := true }
    else
      let mr := reply_media env p.1 p.2
      match mr.result with
      | .ok b =>
        ⟨st.events ++ mr.events, st.counter + mr.counter, true, st.foundMedia || b⟩
      | .error _ =>
        ⟨st.events ++ mr.events ++ [.handleError id], st.counter + mr.counter,
         true, st.foundMedia⟩
  | .error e =>
    match e with
    | .apiError msg => { st with events := st.events ++ [.scrapeErrorMsg id msg] }
    | _ => { st with events := st.events ++ [.handleError id] }

/-- Result of handling one message: sink events, the `media_downloaded`
delta and the `messages_handled` delta (always 1). -/
structure HandleResult where
  events : List Event
  mediaDownloaded : Nat
  messagesHandled : Nat
deriving DecidableEq

/-- Model of `handle_message`: extract ids (replying "No supported tweet
link found" when there are none), loop over the ids, and afterwards send
the "No supported media found" summary iff some scrape succeeded and no
`reply_media` call returned true. -/
def handle_message (env : Env) (text : Str) : HandleResult :=
  match extract_tweet_ids env.resolve text with
  | none => ⟨[.noSupportedLink], 0, 1⟩
  | some ids =>
    let st := ids.foldl (handleOne env) ⟨[], 0, false, false⟩
    ⟨st.events ++ (if st.foundTweets && !st.foundMedia then [.noSupportedMedia] else []),
     st.counter, 1⟩

/-! ### Rendering of events to the exact sink calls of the source -/

/-- A call against the messaging sink, with its literal text payloads. -/
inductive SinkCall
  | replyText (body : Str)
  | mediaGroupCall (items : List (Str × Option Str))
  | animationCall (url caption : Str)
  | videoCall (url caption : Str)
  | videoFileCall (caption : Str)
  | deleteCall
deriving DecidableEq

/-- The exact sink call an event stands for, with the literal message
strings of src/main.py. -/
def renderEvent : Event → SinkCall
  | .mediaGroup items => .mediaGroupCall items
  | .animation u c => .animationCall u c
  | .videoDirect u c => .videoCall u c
  | .uploadNotice => .replyText
      ("Video is too large for direct download\nUsing upload method (this might take a bit longer)".toList)
  | .videoUpload c => .videoFileCall c
  | .deleteNotice => .deleteCall
  | .videoError u c => .replyText
      ("Error occurred when trying to send video. Direct link:\n".toList ++ u ++
       "\n\nTweet text:\n".toList ++ c)
  | .videoTooLarge u c => .replyText
      ("Video is too large for Telegram upload. Direct video link:\n".toList ++ u ++
       "\n\nTweet text:\n".toList ++ c)
  | .noMedia id c => .replyText
      ("Tweet ".toList ++ id ++ " has no media\n\nTweet text:\n".toList ++ c)
  | .scrapeErrorMsg id msg => .replyText
      ("Error occurred when scraping tweet ".toList ++ id ++ '\n' :: msg)
  | .handleError id => .replyText ("Error handling tweet ".toList ++ id)
  | .noSupportedLink => .replyText ("No supported tweet link found".toList)
  | .noSupportedMedia => .replyText ("No supported media found".toList)

/-- The caption strings an event passes to the sink (the fields that are
`tweet_text[:1024]` in the source). -/
def captionsOf : Event → List Str
  | .mediaGroup items => items.filterMap Prod.snd
  | .animation _ c => [c]
  | .videoDirect _ c => [c]
  | .videoUpload c => [c]
  | .videoError _ c => [c]
  | .videoTooLarge _ c => [c]
  | .noMedia _ c => [c]
  | _ => []

/-- Events that are an actual successful media delivery, as opposed to
text fallbacks and notices. -/
def isDelivery : Event → Bool
  | .mediaGroup _ => true
  | .animation _ _ => true
  | .videoDirect _ _ => true
  | .videoUpload _ => true
  | _ => false

/-- Events belonging to the video dispatch path. -/
def isVideoEvent : Event → Bool
  | .videoDirect _ _ => true
  | .uploadNotice => true
  | .videoUpload _ => true
  | .deleteNotice => true
  | .videoError _ _ => true
  | .videoTooLarge _ _ => true
  | _ => false

/-- Supported media types: exactly those `reply_media` buckets. -/
def isSupported (m : MediaItem) : Bool :=
  m.mtype = imageT || m.mtype = gifT || m.mtype = videoT

/-! ### Concrete environments used by witnesses and counterexamples -/

/-- A fully benign environment: every network call and sink call succeeds. -/
def envOk : Env where
  resolve := fun _ => none
  scrape := fun _ => .jsonBody (some []) (some [])
  unescape := fun s => s
  headReq := fun _ => .ok
  sendMediaGroup := fun _ => .ok
  sendAnimation := fun _ => .ok
  videoFetch := fun _ => .ok (some 1000)
  sendVideo := fun _ => .ok
  sendVideoUpload := fun _ => .ok

/-- Environment in which every video size probe fails with an HTTP error,
so every video delivery degrades to the text fallback. -/
def envVidFail : Env := { envOk with videoFetch := fun _ => .httpErr }

/-- Environment in which the HEAD probe of every rewritten photo URL fails
at the connection level. -/
def envHeadConn : Env := { envOk with headReq := fun _ => .connErr }

/-- Environment whose scrape API always answers with a JSON body carrying
an empty media list and the text "hi". -/
def env2 : Env := { envOk with scrape := fun _ => .jsonBody (some []) (some ('h' :: 'i' :: [])) }

def text123 : Str := "x.com/u/status/123".toList

def id123 : Str := '1' :: '2' :: '3' :: []

/-- An HTML error page of the scrape API with an `og:description` meta tag. -/
def errHtml : Str :=
  "<html><head><meta content=\"Tweet not found\" property=\"og:description\" /></head></html>".toList

/-- Environment whose scrape API always answers with the HTML error page. -/
def env5 : Env := { envOk with scrape := fun _ => .rawBody errHtml }

/-- Environment whose scrape API yields one gif and the text "hi". -/
def env8 : Env :=
  { envOk with scrape := fun _ => .jsonBody (some [⟨gifT, 'u' :: []⟩]) (some ('h' :: 'i' :: [])) }

/-- Environment whose scrape API yields one gif and one video. -/
def env6 : Env :=
  { envOk with scrape := fun _ =>
      .jsonBody (some [⟨gifT, 'g' :: []⟩, ⟨videoT, 'v' :: []⟩]) (some []) }

/-! ### Helper lemmas about the dispatcher -/

theorem filter_not_isEmpty_iff_any (p : MediaItem → Bool) (l : List MediaItem) :
    (!(l.filter p).isEmpty) = l.any p := by
  induction l with
  | nil => rfl
  | cons x xs ih =>
    by_cases h : p x <;> simp [List.filter_cons, List.any_cons, h, ← ih]

theorem reply_photos_events_shape (env : Env) (ps : List MediaItem) (txt : Str) :
    (reply_photos env ps txt).events = [] ∨
    ∃ g, (reply_photos env ps txt).events = [.mediaGroup g] := by
  unfold reply_photos
  rcases hb : buildPhotoGroup env ps (txt.take 1024) 0 with e | g
  · exact Or.inl rfl
  · rcases hs : env.sendMediaGroup g with _ | _
    · right; exact ⟨g, by simp [hs]⟩
    · left; simp [hs]

theorem reply_gifs_events_shape (env : Env) (gs : List MediaItem) (txt : Str) :
    ∀ ev ∈ (reply_gifs env gs txt).events, ∃ u, ev = .animation u (txt.take 1024) := by
  induction gs with
  | nil => intro ev h; simp [reply_gifs] at h
  | cons g rest ih =>
    intro ev h
    unfold reply_gifs at h
    rcases hs : env.sendAnimation g.url with _ | _ <;> simp [hs] at h
    rcases h with h | h
    · exact ⟨g.url, h⟩
    · exact ih ev h

theorem videoOnce_events_video (env : Env) (url txt : Str) :
    ∀ ev ∈ videoOnce env url txt, isVideoEvent ev = true := by
  intro ev h
  unfold videoOnce at h
  rcases hf : env.videoFetch url with _ | _ | cl <;> simp [hf] at h
  · simp [h, isVideoEvent]
  · simp [h, isVideoEvent]
  · rcases cl with _ | size
    · simp at h; simp [h, isVideoEvent]
    · simp at h
      rcases ht : videoTier size with _ | _ | _ <;> simp [ht] at h
      · rcases hs : env.sendVideo url with _ | _ <;> simp [hs] at h <;>
          simp [h, isVideoEvent]
      · rcases hs : env.sendVideoUpload url with _ | _ <;> simp [hs] at h <;>
          rcases h with h | h | h <;> simp_all [isVideoEvent]
      · simp [h, isVideoEvent]

theorem reply_videos_events_video (env : Env) (vs : List MediaItem) (txt : Str) :
    ∀ ev ∈ (reply_videos env vs txt).events, isVideoEvent ev = true := by
  induction vs with
  | nil => intro ev h; simp [reply_videos] at h
  | cons v rest ih =>
    intro ev h
    unfold reply_videos at h
    simp at h
    rcases h with h | h
    · exact videoOnce_events_video env v.url txt ev h
    · exact ih ev h

/-! ### C3 — video size tiering -/

/-- Claim C3: for a video of measured content-length `s`, exactly one of
the three delivery strategies runs: direct URL relay when
`s ≤ MAX_FILESIZE_DOWNLOAD`, buffered upload when
`MAX_FILESIZE_DOWNLOAD < s ≤ MAX_FILESIZE_UPLOAD`, and the link-only text
fallback when `s > MAX_FILESIZE_UPLOAD`; both thresholds are inclusive, so
`s = MAX_FILESIZE_DOWNLOAD` selects the download tier and
`s = MAX_FILESIZE_UPLOAD` the upload tier. -/
theorem video_size_tiering (s : Nat) (env : Env) (url txt : Str)
    (hf : env.videoFetch url = .ok (some s))
    (hd : env.sendVideo url = .ok) (hu : env.sendVideoUpload url = .ok) :
    (videoOnce env url txt = [.videoDirect url (txt.take 1024)] ↔
      s ≤ MAX_FILESIZE_DOWNLOAD) ∧
    (videoOnce env url txt = [.uploadNotice, .videoUpload (txt.take 1024), .deleteNotice] ↔
      (MAX_FILESIZE_DOWNLOAD < s ∧ s ≤ MAX_FILESIZE_UPLOAD)) ∧
    (videoOnce env url txt = [.videoTooLarge url (txt.take 1024)] ↔
      MAX_FILESIZE_UPLOAD < s) ∧
    videoTier MAX_FILESIZE_DOWNLOAD = .download ∧
    videoTier MAX_FILESIZE_UPLOAD = .upload ∧
    reply_videos env [⟨videoT, url⟩] txt = ⟨videoOnce env url txt, 1, none⟩ := by
  have he : videoOnce env url txt =
      if s ≤ MAX_FILESIZE_DOWNLOAD then [.videoDirect url (txt.take 1024)]
      else if s ≤ MAX_FILESIZE_UPLOAD then
        [.uploadNotice, .videoUpload (txt.take 1024), .deleteNotice]
      else [.videoTooLarge url (txt.take 1024)] := by
    unfold videoOnce
    rw [hf]
    unfold videoTier
    by_cases h1 : s ≤ MAX_FILESIZE_DOWNLOAD
    · simp [h1, hd]
    · by_cases h2 : s ≤ MAX_FILESIZE_UPLOAD
      · simp [h1, h2, hu]
      · simp [h1, h2]
  rw [he]
  refine ⟨?_, ?_, ?_, by decide, by decide, by simp [reply_videos, he]⟩
  · by_cases h1 : s ≤ MAX_FILESIZE_DOWNLOAD
    · simp [h1]
    · by_cases h2 : s ≤ MAX_FILESIZE_UPLOAD <;> simp [h1, h2]
  · by_cases h1 : s ≤ MAX_FILESIZE_DOWNLOAD
    · simp [h1] <;> omega
    · by_cases h2 : s ≤ MAX_FILESIZE_UPLOAD <;> simp [h1, h2] <;> omega
  · have hDU : MAX_FILESIZE_DOWNLOAD < MAX_FILESIZE_UPLOAD := by decide
    by_cases h1 : s ≤ MAX_FILESIZE_DOWNLOAD
    · simp [h1] <;> omega
    · by_cases h2 : s ≤ MAX_FILESIZE_UPLOAD <;> simp [h1, h2] <;> omega

/-- Witness for C3 at a concrete boundary size. -/
theorem video_size_tiering_witness :
    envOk.videoFetch ('u' :: []) = .ok (some 1000) ∧
    (videoOnce envOk ('u' :: []) [] = [.videoDirect ('u' :: []) []] ↔
      1000 ≤ MAX_FILESIZE_DOWNLOAD) := by
  refine ⟨by decide, ?_⟩
  exact (video_size_tiering 1000 envOk ('u' :: []) [] (by decide) (by decide) (by decide)).1

/-! ### C10 — media_downloaded counts attempted videos -/

/-- Claim C10: `reply_videos` always adds exactly the number of videos it
was given to the `media_downloaded` counter, whatever the delivery
outcomes are (fallbacks included), and no exception escapes it. -/
theorem reply_videos_counter (env : Env) (videos : List MediaItem) (txt : Str) :
    (reply_videos env videos txt).counter = videos.length ∧
    (reply_videos env videos txt).error = none := by
  induction videos with
  | nil => exact ⟨rfl, rfl⟩
  | cons v rest ih =>
    obtain ⟨ih1, ih2⟩ := ih
    refine ⟨?_, ih2⟩
    show 1 + (reply_videos env rest txt).counter = rest.length + 1
    rw [ih1]
    omega

/-! ### C7 — classification is a total partition (on supported types) -/

theorem count_filter_eq (p : MediaItem → Bool) (l : List MediaItem) (m : MediaItem) :
    (l.filter p).count m = if p m = true then l.count m else 0 := by
  by_cases h : p m = true
  · rw [if_pos h, List.count_filter h]
  · rw [if_neg h]
    exact List.count_eq_zero.mpr fun hc => h (List.mem_filter.mp hc).2

/-- Claim C7: on media items whose type is one of the three supported kinds
(as the spec's data model fixes), `classify` is a total partition: each
item lands in exactly one bucket, each bucket is an order-preserving
sublist of the input, the per-element counts add up, and the empty input
yields three empty buckets. -/
theorem classify_partition (media : List MediaItem)
    (h : ∀ m ∈ media, isSupported m = true) :
    (∀ m ∈ media,
      (m ∈ (classify media).1 ∧ m ∉ (classify media).2.1 ∧ m ∉ (classify media).2.2) ∨
      (m ∉ (classify media).1 ∧ m ∈ (classify media).2.1 ∧ m ∉ (classify media).2.2) ∨
      (m ∉ (classify media).1 ∧ m ∉ (classify media).2.1 ∧ m ∈ (classify media).2.2)) ∧
    (∀ m : MediaItem,
      (classify media).1.count m + (classify media).2.1.count m +
        (classify media).2.2.count m = media.count m) ∧
    (classify media).1.Sublist media ∧
    (classify media).2.1.Sublist media ∧
    (classify media).2.2.Sublist media ∧
    classify [] = ([], [], []) := by
  refine ⟨?_, ?_, List.filter_sublist media, List.filter_sublist media,
    List.filter_sublist media, rfl⟩
  · intro m hm
    have hig : imageT ≠ gifT := by decide
    have hiv : imageT ≠ videoT := by decide
    have hgv : gifT ≠ videoT := by decide
    have hs : m.mtype = imageT ∨ m.mtype = gifT ∨ m.mtype = videoT := by
      have := h m hm
      simpa [isSupported, Bool.or_eq_true, decide_eq_true_eq, or_assoc] using this
    simp only [classify, List.mem_filter]
    rcases hs with h1 | h1 | h1
    · exact Or.inl ⟨⟨hm, by simp [h1]⟩,
        fun hc => hig (h1.symm.trans (by simpa using hc.2)),
        fun hc => hiv (h1.symm.trans (by simpa using hc.2))⟩
    · exact Or.inr (Or.inl ⟨fun hc => hig (Eq.symm (h1.symm.trans (by simpa using hc.2))),
        ⟨hm, by simp [h1]⟩,
        fun hc => hgv (h1.symm.trans (by simpa using hc.2))⟩)
    · exact Or.inr (Or.inr ⟨fun hc => hiv (Eq.symm (h1.symm.trans (by simpa using hc.2))),
        fun hc => hgv (Eq.symm (h1.symm.trans (by simpa using hc.2))),
        ⟨hm, by simp [h1]⟩⟩)
  · intro m
    by_cases hmem : m ∈ media
    · have hs : m.mtype = imageT ∨ m.mtype = gifT ∨ m.mtype = videoT := by
        have := h m hmem
        simpa [isSupported, Bool.or_eq_true, decide_eq_true_eq, or_assoc] using this
      rcases hs with h1 | h1 | h1 <;>
        simp +decide [classify, count_filter_eq, h1]
    · have h0 : media.count m = 0 := List.count_eq_zero.mpr hmem
      simp [classify, count_filter_eq, h0]

/-- Witness for C7 on a two-item list. -/
theorem classify_partition_witness :
    (∀ m ∈ [(⟨imageT, 'a' :: []⟩ : MediaItem), ⟨videoT, 'b' :: []⟩], isSupported m = true) ∧
    (classify [(⟨imageT, 'a' :: []⟩ : MediaItem), ⟨videoT, 'b' :: []⟩]).1.Sublist
      [(⟨imageT, 'a' :: []⟩ : MediaItem), ⟨videoT, 'b' :: []⟩] := by
  refine ⟨by decide, ?_⟩
  exact (classify_partition _ (by decide)).2.2.1

/-! ### C1 — the return value of reply_media -/

theorem reply_media_result_ok (env : Env) (media : List MediaItem) (txt : Str) (b : Bool)
    (h : (reply_media env media txt).result = .ok b) :
    b = (!(classify media).1.isEmpty || !(classify media).2.1.isEmpty ||
         !(classify media).2.2.isEmpty) := by
  simp only [reply_media] at h
  rcases h1 : (photosDispatch env (classify media).1 txt).error with _ | e
  · rw [h1] at h
    rcases h2 : (bucketDispatch env (classify media).2.1 (classify media).2.2 txt).error
        with _ | e2
    · rw [h2] at h
      simpa using h.symm
    · rw [h2] at h
      simp at h
  · rw [h1] at h
    simp at h

/-- Counterexample to C1 as stated: with a single video whose size probe
fails, the only delivery attempt fails (degrading to the direct-link text
fallback), yet `reply_media` still returns `true` — the claim says it must
return `false` when every individual delivery fails. -/
theorem reply_media_counterexample :
    (reply_media envVidFail [⟨videoT, 'u' :: []⟩] []).result = .ok true ∧
    (reply_media envVidFail [⟨videoT, 'u' :: []⟩] []).events.filter isDelivery = [] ∧
    (reply_media envVidFail [⟨videoT, 'u' :: []⟩] []).events =
      [.videoError ('u' :: []) []] := by decide

/-- C1 amended: when `reply_media` returns (no uncaught delivery error
escapes), its boolean is `true` iff at least one media item has a supported
type (image, gif or video); the value does not reflect whether any delivery
succeeded. -/
theorem reply_media_returns_presence (env : Env) (media : List MediaItem) (txt : Str)
    (b : Bool) (h : (reply_media env media txt).result = .ok b) :
    b = true ↔ (∃ m ∈ media, isSupported m = true) := by
  rw [reply_media_result_ok env media txt b h]
  simp only [classify, filter_not_isEmpty_iff_any, Bool.or_eq_true, List.any_eq_true]
  constructor
  · rintro ((⟨m, hm, hp⟩ | ⟨m, hm, hp⟩) | ⟨m, hm, hp⟩) <;>
      exact ⟨m, hm, by simp [isSupported, hp]⟩
  · rintro ⟨m, hm, hp⟩
    have : m.mtype = imageT ∨ m.mtype = gifT ∨ m.mtype = videoT := by
      simpa [isSupported, Bool.or_eq_true, decide_eq_true_eq, or_assoc] using hp
    rcases this with h1 | h1 | h1
    · exact Or.inl (Or.inl ⟨m, hm, by simp [h1]⟩)
    · exact Or.inl (Or.inr ⟨m, hm, by simp [h1]⟩)
    · exact Or.inr ⟨m, hm, by simp [h1]⟩

/-- Witness for the amended C1. -/
theorem reply_media_returns_presence_witness :
    ((reply_media envOk [⟨imageT, 'u' :: []⟩] []).result = .ok true) ∧
    (true = true ↔ ∃ m ∈ [(⟨imageT, 'u' :: []⟩ : MediaItem)], isSupported m = true) :=
  ⟨by decide, reply_media_returns_presence envOk [⟨imageT, 'u' :: []⟩] [] true (by decide)⟩

/-! ### C6 — gifs suppress videos -/

theorem reply_media_events_sub (env : Env) (media : List MediaItem) (txt : Str) :
    ∀ ev ∈ (reply_media env media txt).events,
      ev ∈ (photosDispatch env (classify media).1 txt).events ∨
      ev ∈ (bucketDispatch env (classify media).2.1 (classify media).2.2 txt).events := by
  intro ev hev
  simp only [reply_media] at hev
  rcases h1 : (photosDispatch env (classify media).1 txt).error with _ | e <;>
    rw [h1] at hev
  · simp at hev
    tauto
  · exact Or.inl hev

/-- Claim C6: when both the gif bucket and the video bucket of a post are
non-empty, `reply_media` performs no video-path operation at all — only
gifs (and photos, if present) are dispatched. -/
theorem gifs_suppress_videos (env : Env) (media : List MediaItem) (txt : Str)
    (hg : (classify media).2.1 ≠ []) (hv : (classify media).2.2 ≠ []) :
    ∀ ev ∈ (reply_media env media txt).events, isVideoEvent ev = false := by
  intro ev hev
  have hg2 : (!(classify media).2.1.isEmpty) = true := by
    simp [List.isEmpty_iff]
    exact hg
  rcases reply_media_events_sub env media txt ev hev with h | h
  · unfold photosDispatch at h
    by_cases hp : (classify media).1.isEmpty
    · rw [if_pos hp] at h
      simp at h
    · rw [if_neg hp] at h
      rcases reply_photos_events_shape env (classify media).1 txt with he | ⟨g, he⟩ <;>
        rw [he] at h <;> simp at h
      rw [h]
      rfl
  · unfold bucketDispatch at h
    rw [if_pos hg2] at h
    rcases reply_gifs_events_shape env (classify media).2.1 txt ev h with ⟨u, hu⟩
    rw [hu]
    rfl

/-- Witness for C6: a post with one gif and one video dispatches only the
gif. -/
theorem gifs_suppress_videos_witness :
    ((classify [(⟨gifT, 'g' :: []⟩ : MediaItem), ⟨videoT, 'v' :: []⟩]).2.1 ≠ []) ∧
    ((classify [(⟨gifT, 'g' :: []⟩ : MediaItem), ⟨videoT, 'v' :: []⟩]).2.2 ≠ []) ∧
    ∀ ev ∈ (reply_media envOk [(⟨gifT, 'g' :: []⟩ : MediaItem), ⟨videoT, 'v' :: []⟩] []).events,
      isVideoEvent ev = false :=
  ⟨by decide, by decide,
   gifs_suppress_videos envOk [⟨gifT, 'g' :: []⟩, ⟨videoT, 'v' :: []⟩] []
     (by decide) (by decide)⟩

/-! ### C9 — the photo quality probe and its fallback -/

/-- The URL the source ends up putting in the photo group for one photo:
the rewritten original-quality URL when the HEAD probe succeeds, the
unchanged original URL when the probe reports an HTTP error. -/
def chosenUrl (env : Env) (p : MediaItem) : Str :=
  if env.headReq (setOrigQuery p.url) = .ok then setOrigQuery p.url else p.url

/-- Expected photo group (specification-side value for the refinement
statement of C9): each photo contributes its chosen URL, and only index 0
carries the caption. -/
def expectedPhotoGroup (env : Env) (photos : List MediaItem) (cap : Str) (i : Nat) :
    List (Str × Option Str) :=
  match photos with
  | [] => []
  | p :: rest =>
    (chosenUrl env p, if i = 0 then some cap else none) :: expectedPhotoGroup env rest cap (i + 1)

theorem expectedPhotoGroup_length (env : Env) (photos : List MediaItem) (cap : Str) (i : Nat) :
    (expectedPhotoGroup env photos cap i).length = photos.length := by
  induction photos generalizing i with
  | nil => rfl
  | cons p rest ih => simp [expectedPhotoGroup, ih]

theorem buildPhotoGroup_no_conn (env : Env) (photos : List MediaItem) (cap : Str) (i : Nat)
    (h : ∀ p ∈ photos, env.headReq (setOrigQuery p.url) ≠ .connErr) :
    buildPhotoGroup env photos cap i = .ok (expectedPhotoGroup env photos cap i) := by
  induction photos generalizing i with
  | nil => rfl
  | cons p rest ih =>
    have hrest : ∀ q ∈ rest, env.headReq (setOrigQuery q.url) ≠ .connErr :=
      fun q hq => h q (List.mem_cons_of_mem p hq)
    unfold buildPhotoGroup
    rcases hh : env.headReq (setOrigQuery p.url) with _ | _ | _
    · rw [ih (i + 1) hrest]
      simp [expectedPhotoGroup, chosenUrl, hh, Except.map]
    · rw [ih (i + 1) hrest]
      simp [expectedPhotoGroup, chosenUrl, hh, Except.map]
    · exact absurd hh (h p (List.mem_cons_self p rest))

/-- C9 amended: when no probe fails at the connection level, the group is
built for every photo — a probe that fails with an HTTP error status makes
that photo fall back to its unchanged original URL without preventing the
album — and the album is then sent as one media group.  (As stated the
claim is false: a connection-level probe failure is not caught and aborts
the whole album, see the counterexample.) -/
theorem photo_probe_fallback (env : Env) (photos : List MediaItem) (txt : Str)
    (h : ∀ p ∈ photos, env.headReq (setOrigQuery p.url) ≠ .connErr) :
    buildPhotoGroup env photos (txt.take 1024) 0 =
      .ok (expectedPhotoGroup env photos (txt.take 1024) 0) ∧
    (env.sendMediaGroup (expectedPhotoGroup env photos (txt.take 1024) 0) = .ok →
      reply_photos env photos txt =
        ⟨[.mediaGroup (expectedPhotoGroup env photos (txt.take 1024) 0)],
         photos.length, none⟩) := by
  refine ⟨buildPhotoGroup_no_conn env photos (txt.take 1024) 0 h, fun hs => ?_⟩
  unfold reply_photos
  rw [buildPhotoGroup_no_conn env photos (txt.take 1024) 0 h]
  simp [hs, expectedPhotoGroup_length]

/-- Counterexample to C9 as stated: a connection-level HEAD probe failure
is not among the caught exceptions, so the album is never sent and the
error escapes `reply_photos` — the probe failure did prevent the image
from being sent. -/
theorem photo_probe_counterexample :
    reply_photos envHeadConn [⟨imageT, 'u' :: []⟩] [] = ⟨[], 0, some .connError⟩ ∧
    (reply_photos envHeadConn [⟨imageT, 'u' :: []⟩] []).events.filter isDelivery = [] := by
  decide

/-! ### C5 — scrape error classification and verbatim reporting -/

/-- Claim C5: when the scrape response body is not valid JSON, the client
raises `APIException` carrying the HTML-entity-decoded `og:description`
content when the meta tag is present, and otherwise propagates the JSON
parse failure; and in the concrete end-to-end scenario (post id 123,
`og:description="Tweet not found"`) the user receives exactly
`"Error occurred when scraping tweet 123\nAPI returned error: Tweet not found"`. -/
theorem scrape_error_reporting (env : Env) (id body : Str)
    (h : env.scrape id = .rawBody body) :
    (scrape_media env id = match metaSearch body with
      | some content => .error (.apiError (apiErrPre ++ env.unescape content))
      | none => .error .jsonDecodeError) ∧
    (handle_message env5 text123).events.map renderEvent =
      [.replyText
        ("Error occurred when scraping tweet 123\nAPI returned error: Tweet not found".toList)] := by
  constructor
  · unfold scrape_media
    rw [h]
  · decide

/-- Witness for C5 at the concrete scenario-D environment. -/
theorem scrape_error_reporting_witness :
    (env5.scrape id123 = .rawBody errHtml) ∧
    ((scrape_media env5 id123 = match metaSearch errHtml with
      | some content => .error (.apiError (apiErrPre ++ env5.unescape content))
      | none => .error .jsonDecodeError) ∧
    (handle_message env5 text123).events.map renderEvent =
      [.replyText
        ("Error occurred when scraping tweet 123\nAPI returned error: Tweet not found".toList)]) :=
  ⟨by decide, scrape_error_reporting env5 id123 errHtml (by decide)⟩

/-- Witness for the amended C9, with a probe that fails with an HTTP error:
the original URL is used and the album is still sent. -/
theorem photo_probe_fallback_witness :
    (∀ p ∈ [(⟨imageT, 'u' :: []⟩ : MediaItem)],
      ({ envOk with headReq := fun _ => .httpErr } : Env).headReq (setOrigQuery p.url) ≠
        .connErr) ∧
    buildPhotoGroup { envOk with headReq := fun _ => .httpErr } [⟨imageT, 'u' :: []⟩]
        (([] : Str).take 1024) 0 =
      .ok (expectedPhotoGroup { envOk with headReq := fun _ => .httpErr }
        [⟨imageT, 'u' :: []⟩] (([] : Str).take 1024) 0) :=
  ⟨by decide,
   (photo_probe_fallback { envOk with headReq := fun _ => .httpErr }
     [⟨imageT, 'u' :: []⟩] [] (by decide)).1⟩

/-! ### C2 — the final "No supported media found" summary -/

/-- Holds when the scrape of `id` succeeds (whatever the media list is). -/
def scrapeOk (env : Env) (id : Str) : Bool :=
  match scrape_media env id with
  | .ok _ => true
  | .error _ => false

/-- Holds when the scrape of `id` succeeds with a non-empty media list and
the `reply_media` call for it returns `true`. -/
def mediaReplied (env : Env) (id : Str) : Bool :=
  match scrape_media env id with
  | .ok p =>
    !p.1.isEmpty &&
      (match (reply_media env p.1 p.2).result with
       | .ok b => b
       | .error _ => false)
  | .error _ => false

/-- The events one loop iteration appends for the id `id`. -/
def handleOneEvents (env : Env) (id : Str) : List Event :=
  match scrape_media env id with
  | .ok p =>
    if p.1.isEmpty then [.noMedia id (p.2.take 1024)]
    else
      let mr := reply_media env p.1 p.2
      match mr.result with
      | .ok _ => mr.events
      | .error _ => mr.events ++ [.handleError id]
  | .error e =>
    match e with
    | .apiError msg => [.scrapeErrorMsg id msg]
    | _ => [.handleError id]

theorem handleOne_foundTweets (env : Env) (st : LoopState) (id : Str) :
    (handleOne env st id).foundTweets = (st.foundTweets || scrapeOk env id) := by
  unfold handleOne scrapeOk
  rcases h : scrape_media env id with e | p
  · cases e <;> simp
  · obtain ⟨media, txt⟩ := p
    by_cases hm : media.isEmpty
    · simp [hm]
    · rcases hr : (reply_media env media txt).result with e2 | b <;> simp [hm, hr]

theorem handleOne_foundMedia (env : Env) (st : LoopState) (id : Str) :
    (handleOne env st id).foundMedia = (st.foundMedia || mediaReplied env id) := by
  unfold handleOne mediaReplied
  rcases h : scrape_media env id with e | p
  · cases e <;> simp
  · obtain ⟨media, txt⟩ := p
    by_cases hm : media.isEmpty
    · simp [hm]
    · rcases hr : (reply_media env media txt).result with e2 | b <;> simp [hm, hr]

theorem handleOne_events (env : Env) (st : LoopState) (id : Str) :
    (handleOne env st id).events = st.events ++ handleOneEvents env id := by
  unfold handleOne handleOneEvents
  rcases h : scrape_media env id with e | p
  · cases e <;> simp
  · obtain ⟨media, txt⟩ := p
    by_cases hm : media.isEmpty
    · simp [hm]
    · rcases hr : (reply_media env media txt).result with e2 | b <;> simp [hm, hr]

theorem fold_foundTweets (env : Env) (ids : List Str) (st : LoopState) :
    (ids.foldl (handleOne env) st).foundTweets =
      (st.foundTweets || ids.any (scrapeOk env)) := by
  induction ids generalizing st with
  | nil => simp
  | cons id rest ih =>
    rw [List.foldl_cons, ih, handleOne_foundTweets]
    simp [Bool.or_assoc]

theorem fold_foundMedia (env : Env) (ids : List Str) (st : LoopState) :
    (ids.foldl (handleOne env) st).foundMedia =
      (st.foundMedia || ids.any (mediaReplied env)) := by
  induction ids generalizing st with
  | nil => simp
  | cons id rest ih =>
    rw [List.foldl_cons, ih, handleOne_foundMedia]
    simp [Bool.or_assoc]

theorem fold_events (env : Env) (ids : List Str) (st : LoopState) :
    (ids.foldl (handleOne env) st).events =
      st.events ++ ids.flatMap (handleOneEvents env) := by
  induction ids generalizing st with
  | nil => simp
  | cons id rest ih =>
    rw [List.foldl_cons, ih, handleOne_events]
    simp

theorem reply_media_no_summary (env : Env) (media : List MediaItem) (txt : Str) :
    ∀ ev ∈ (reply_media env media txt).events, ev ≠ .noSupportedMedia := by
  intro ev hev
  rcases reply_media_events_sub env media txt ev hev with h | h
  · unfold photosDispatch at h
    by_cases hp : (classify media).1.isEmpty
    · rw [if_pos hp] at h
      simp at h
    · rw [if_neg hp] at h
      rcases reply_photos_events_shape env (classify media).1 txt with he | ⟨g, he⟩ <;>
        rw [he] at h <;> simp at h
      rw [h]
      intro hc
      cases hc
  · unfold bucketDispatch at h
    by_cases hg : (!(classify media).2.1.isEmpty) = true
    · rw [if_pos hg] at h
      rcases reply_gifs_events_shape env (classify media).2.1 txt ev h with ⟨u, hu⟩
      rw [hu]
      intro hc
      cases hc
    · rw [if_neg hg] at h
      by_cases hv : (!(classify media).2.2.isEmpty) = true
      · rw [if_pos hv] at h
        have := reply_videos_events_video env (classify media).2.2 txt ev h
        intro hc
        rw [hc] at this
        exact absurd this (by decide)
      · rw [if_neg hv] at h
        simp at h

theorem handleOneEvents_no_summary (env : Env) (id : Str) :
    ∀ ev ∈ handleOneEvents env id, ev ≠ .noSupportedMedia := by
  intro ev hev
  unfold handleOneEvents at hev
  rcases h : scrape_media env id with e | p <;> rw [h] at hev
  · cases e <;> simp at hev <;> rw [hev] <;> intro hc <;> cases hc
  · obtain ⟨media, txt⟩ := p
    by_cases hm : media.isEmpty
    · simp [hm] at hev
      rw [hev]
      intro hc
      cases hc
    · rcases hr : (reply_media env media txt).result with e2 | b <;> simp [hm, hr] at hev
      · rcases hev with hev | hev
        · exact reply_media_no_summary env media txt ev hev
        · rw [hev]
          intro hc
          cases hc
      · exact reply_media_no_summary env media txt ev hev

/-- Counterexample to C2 as stated: every scraped post has an empty media
list, yet the "No supported media found" summary is sent, because
`found_tweets` is set by any successful scrape, media or not. -/
theorem summary_counterexample :
    extract_tweet_ids env2.resolve text123 = some [id123] ∧
    scrape_media env2 id123 = .ok ([], 'h' :: 'i' :: []) ∧
    Event.noSupportedMedia ∈ (handle_message env2 text123).events := by
  decide

/-- C2 amended: the final summary is sent iff at least one id was scraped
successfully (even with an empty media list) and no successfully scraped id
had a non-empty media list whose `reply_media` call returned `true`. -/
theorem summary_condition (env : Env) (text : Str) (ids : List Str)
    (h : extract_tweet_ids env.resolve text = some ids) :
    (Event.noSupportedMedia ∈ (handle_message env text).events) ↔
      (ids.any (scrapeOk env) = true ∧ ids.any (mediaReplied env) = false) := by
  unfold handle_message
  rw [h]
  have hst : ∀ ev ∈ (ids.foldl (handleOne env) ⟨[], 0, false, false⟩).events,
      ev ≠ .noSupportedMedia := by
    intro ev hev
    rw [fold_events] at hev
    simp at hev
    rcases hev with ⟨i, _, hin⟩
    exact handleOneEvents_no_summary env i ev hin
  have hft := fold_foundTweets env ids ⟨[], 0, false, false⟩
  have hfm := fold_foundMedia env ids ⟨[], 0, false, false⟩
  simp only [List.mem_append]
  constructor
  · intro hmem
    rcases hmem with hmem | hmem
    · exact absurd rfl (hst _ hmem)
    · by_cases hc : ((ids.foldl (handleOne env) ⟨[], 0, false, false⟩).foundTweets &&
          !(ids.foldl (handleOne env) ⟨[], 0, false, false⟩).foundMedia) = true
      · rw [hft, hfm] at hc
        simp only [Bool.false_or] at hc
        rw [Bool.and_eq_true, Bool.not_eq_true'] at hc
        exact hc
      · rw [if_neg hc] at hmem
        simp at hmem
  · rintro ⟨h1, h2⟩
    right
    have hc : ((ids.foldl (handleOne env) ⟨[], 0, false, false⟩).foundTweets &&
        !(ids.foldl (handleOne env) ⟨[], 0, false, false⟩).foundMedia) = true := by
      rw [hft, hfm]
      simp [h1, h2]
    rw [if_pos hc]
    simp

/-- Witness for the amended C2: one id, scrape succeeds with empty media,
the summary is sent. -/
theorem summary_condition_witness :
    (extract_tweet_ids env2.resolve text123 = some [id123]) ∧
    ((Event.noSupportedMedia ∈ (handle_message env2 text123).events) ↔
      ([id123].any (scrapeOk env2) = true ∧ [id123].any (mediaReplied env2) = false)) :=
  ⟨by decide, summary_condition env2 text123 [id123] (by decide)⟩

/-! ### C8 — caption truncation to 1024 characters -/

/-- The tweet text the scrape of `id` yields, when it succeeds. -/
def scrapedTextOf (env : Env) (id : Str) : Option Str :=
  match scrape_media env id with
  | .ok p => some p.2
  | .error _ => none

theorem buildPhotoGroup_snds (env : Env) (ps : List MediaItem) (cap : Str) (i : Nat)
    (g : List (Str × Option Str)) (h : buildPhotoGroup env ps cap i = .ok g) :
    ∀ x ∈ g, x.2 = some cap ∨ x.2 = none := by
  induction ps generalizing i g with
  | nil =>
    unfold buildPhotoGroup at h
    cases h
    simp
  | cons p rest ih =>
    unfold buildPhotoGroup at h
    rcases hh : env.headReq (setOrigQuery p.url) with _ | _ | _ <;> rw [hh] at h
    · rcases hb : buildPhotoGroup env rest cap (i + 1) with e | g2 <;>
        rw [hb] at h <;> simp [Except.map] at h
      intro x hx
      rw [← h] at hx
      rcases List.mem_cons.mp hx with hx | hx
      · rw [hx]
        by_cases hi : i = 0 <;> simp [hi]
      · exact ih (i + 1) g2 hb x hx
    · rcases hb : buildPhotoGroup env rest cap (i + 1) with e | g2 <;>
        rw [hb] at h <;> simp [Except.map] at h
      intro x hx
      rw [← h] at hx
      rcases List.mem_cons.mp hx with hx | hx
      · rw [hx]
        by_cases hi : i = 0 <;> simp [hi]
      · exact ih (i + 1) g2 hb x hx
    · cases h

theorem captions_buildPhotoGroup (env : Env) (ps : List MediaItem) (cap : Str) (i : Nat)
    (g : List (Str × Option Str)) (h : buildPhotoGroup env ps cap i = .ok g) :
    ∀ c ∈ g.filterMap Prod.snd, c = cap := by
  intro c hc
  rcases List.mem_filterMap.mp hc with ⟨x, hx, hxc⟩
  rcases buildPhotoGroup_snds env ps cap i g h x hx with h2 | h2 <;> rw [h2] at hxc
  · cases hxc
    rfl
  · cases hxc

theorem captions_reply_photos (env : Env) (ps : List MediaItem) (txt : Str) :
    ∀ ev ∈ (reply_photos env ps txt).events, ∀ c ∈ captionsOf ev, c = txt.take 1024 := by
  unfold reply_photos
  rcases hb : buildPhotoGroup env ps (txt.take 1024) 0 with e | g
  · intro ev hev
    simp at hev
  · rcases hs : env.sendMediaGroup g with _ | _
    · intro ev hev c hc
      simp [hs] at hev
      rw [hev] at hc
      simp only [captionsOf] at hc
      exact captions_buildPhotoGroup env ps (txt.take 1024) 0 g hb c hc
    · intro ev hev
      simp [hs] at hev

theorem captions_reply_gifs (env : Env) (gs : List MediaItem) (txt : Str) :
    ∀ ev ∈ (reply_gifs env gs txt).events, ∀ c ∈ captionsOf ev, c = txt.take 1024 := by
  intro ev hev c hc
  rcases reply_gifs_events_shape env gs txt ev hev with ⟨u, hu⟩
  rw [hu] at hc
  simpa [captionsOf] using hc

theorem captions_videoOnce (env : Env) (url txt : Str) :
    ∀ ev ∈ videoOnce env url txt, ∀ c ∈ captionsOf ev, c = txt.take 1024 := by
  have hgen : ∀ ev ∈ videoOnce env url txt,
      captionsOf ev = [] ∨ captionsOf ev = [txt.take 1024] := by
    intro ev hev
    unfold videoOnce at hev
    rcases hf : env.videoFetch url with _ | _ | cl <;> rw [hf] at hev
    · simp at hev
      rw [hev]
      exact Or.inr rfl
    · simp at hev
      rw [hev]
      exact Or.inr rfl
    · rcases cl with _ | size
      · simp at hev
        rw [hev]
        exact Or.inr rfl
      · rcases ht : videoTier size with _ | _ | _ <;> simp only [ht] at hev
        · rcases hs : env.sendVideo url with _ | _ <;> rw [hs] at hev <;>
            simp at hev <;> rw [hev] <;> exact Or.inr rfl
        · rcases hs : env.sendVideoUpload url with _ | _ <;> rw [hs] at hev <;>
            simp at hev
          · rcases hev with hev | hev | hev <;> rw [hev]
            · exact Or.inl rfl
            · exact Or.inr rfl
            · exact Or.inl rfl
          · rcases hev with hev | hev <;> rw [hev]
            · exact Or.inl rfl
            · exact Or.inr rfl
        · simp at hev
          rw [hev]
          exact Or.inr rfl
  intro ev hev c hc
  rcases hgen ev hev with h | h <;> rw [h] at hc
  · cases hc
  · simpa using hc

theorem captions_reply_videos (env : Env) (vs : List MediaItem) (txt : Str) :
    ∀ ev ∈ (reply_videos env vs txt).events, ∀ c ∈ captionsOf ev, c = txt.take 1024 := by
  induction vs with
  | nil =>
    intro ev hev
    simp [reply_videos] at hev
  | cons v rest ih =>
    intro ev hev
    unfold reply_videos at hev
    simp at hev
    rcases hev with hev | hev
    · exact captions_videoOnce env v.url txt ev hev
    · exact ih ev hev

theorem captions_reply_media (env : Env) (media : List MediaItem) (txt : Str) :
    ∀ ev ∈ (reply_media env media txt).events, ∀ c ∈ captionsOf ev, c = txt.take 1024 := by
  intro ev hev
  rcases reply_media_events_sub env media txt ev hev with h | h
  · unfold photosDispatch at h
    by_cases hp : (classify media).1.isEmpty
    · rw [if_pos hp] at h
      simp at h
    · rw [if_neg hp] at h
      exact captions_reply_photos env (classify media).1 txt ev h
  · unfold bucketDispatch at h
    by_cases hg : (!(classify media).2.1.isEmpty) = true
    · rw [if_pos hg] at h
      exact captions_reply_gifs env (classify media).2.1 txt ev h
    · rw [if_neg hg] at h
      by_cases hv : (!(classify media).2.2.isEmpty) = true
      · rw [if_pos hv] at h
        exact captions_reply_videos env (classify media).2.2 txt ev h
      · rw [if_neg hv] at h
        simp at h

theorem captions_handleOneEvents (env : Env) (id : Str) :
    ∀ ev ∈ handleOneEvents env id, ∀ c ∈ captionsOf ev,
      ∃ t, scrapedTextOf env id = some t ∧ c = t.take 1024 := by
  intro ev hev c hc
  unfold handleOneEvents at hev
  unfold scrapedTextOf
  rcases h : scrape_media env id with e | p <;> rw [h] at hev
  · cases e <;> simp at hev <;> rw [hev] at hc <;> simp [captionsOf] at hc
  · obtain ⟨media, txt⟩ := p
    refine ⟨txt, rfl, ?_⟩
    by_cases hm : media.isEmpty
    · simp [hm] at hev
      rw [hev] at hc
      simpa [captionsOf] using hc
    · rcases hr : (reply_media env media txt).result with e2 | b <;> simp [hm, hr] at hev
      · rcases hev with hev | hev
        · exact captions_reply_media env media txt ev hev c hc
        · rw [hev] at hc
          simp [captionsOf] at hc
      · exact captions_reply_media env media txt ev hev c hc

/-- Claim C8: every caption string passed to the messaging sink by any
delivery path of one message handling (photo album, animation, video
deliveries, the "no media" reply, and the link-only fallbacks) is exactly
the first 1024 characters of the corresponding scraped tweet text: a text
of at most 1024 characters passes through unchanged, a longer one is
truncated to exactly its first 1024 characters. -/
theorem caption_truncation (env : Env) (text : Str) (ev : Event) (c : Str)
    (h1 : ev ∈ (handle_message env text).events) (h2 : c ∈ captionsOf ev) :
    ∃ id t, scrapedTextOf env id = some t ∧ c = t.take 1024 ∧
      (t.length ≤ 1024 → c = t) ∧ c.length = min 1024 t.length ∧ c <+: t := by
  have main : ∃ id t, scrapedTextOf env id = some t ∧ c = t.take 1024 := by
    unfold handle_message at h1
    rcases he : extract_tweet_ids env.resolve text with _ | ids <;> rw [he] at h1
    · simp at h1
      rw [h1] at h2
      simp [captionsOf] at h2
    · simp only [fold_events, List.nil_append, List.mem_append] at h1
      rcases h1 with h1 | h1
      · simp only [List.mem_flatMap] at h1
        rcases h1 with ⟨i, hi, hin⟩
        rcases captions_handleOneEvents env i ev hin c h2 with ⟨t, ht, hc⟩
        exact ⟨i, t, ht, hc⟩
      · rcases hcond : ((ids.foldl (handleOne env) ⟨[], 0, false, false⟩).foundTweets &&
            !(ids.foldl (handleOne env) ⟨[], 0, false, false⟩).foundMedia) with _ | _ <;>
          rw [hcond] at h1 <;> simp at h1
        rw [h1] at h2
        simp [captionsOf] at h2
  rcases main with ⟨id, t, ht, hc⟩
  refine ⟨id, t, ht, hc, fun hle => ?_, ?_, ?_⟩
  · rw [hc]
    exact List.take_of_length_le hle
  · rw [hc, List.length_take]
  · rw [hc]
    exact List.take_prefix 1024 t

/-- Witness for C8: a delivered gif carries the (short, hence unchanged)
tweet text as caption. -/
theorem caption_truncation_witness :
    (Event.animation ('u' :: []) ('h' :: 'i' :: []) ∈ (handle_message env8 text123).events) ∧
    (('h' :: 'i' :: []) ∈ captionsOf (.animation ('u' :: []) ('h' :: 'i' :: []))) ∧
    (∃ id t, scrapedTextOf env8 id = some t ∧ ('h' :: 'i' :: []) = t.take 1024 ∧
      (t.length ≤ 1024 → ('h' :: 'i' :: []) = t) ∧
      ('h' :: 'i' :: [] : Str).length = min 1024 t.length ∧ ('h' :: 'i' :: []) <+: t) :=
  ⟨by decide, by decide,
   caption_truncation env8 text123 (.animation ('u' :: []) ('h' :: 'i' :: []))
     ('h' :: 'i' :: []) (by decide) (by decide)⟩

/-! ### C4 — link extraction

A structured family of valid post links for quantifying the claim: an
accepted host (twitter.com or x.com), a username of 1-15 word characters,
one of the three path forms, and a post id of 1-20 digits. -/

inductive PathForm | web | statuses | status
deriving DecidableEq

def formChars : PathForm → Str
  | .web => 'w' :: 'e' :: 'b' :: []
  | .statuses => 's' :: 't' :: 'a' :: 't' :: 'u' :: 's' :: 'e' :: 's' :: []
  | .status => 's' :: 't' :: 'a' :: 't' :: 'u' :: 's' :: []

structure TwLink where
  hostX : Bool
  user : Str
  form : PathForm
  digits : Str
deriving DecidableEq

/-- Word characters of a username. -/
def isAlnumU (c : Char) : Bool := c.isAlpha || c.isDigit || c = '_'

/-- Validity of one structured link: the username is 1-15 word characters
and the id is 1-20 digits, matching the bounded quantifiers of the regex. -/
def linkOK (l : TwLink) : Prop :=
  l.user ≠ [] ∧ l.user.length ≤ 15 ∧ (∀ c ∈ l.user, isAlnumU c = true) ∧
  l.digits ≠ [] ∧ l.digits.length ≤ 20 ∧ (∀ c ∈ l.digits, c.isDigit = true)

instance (l : TwLink) : Decidable (linkOK l) := by
  unfold linkOK
  infer_instance

/-- The text of one link. -/
def renderLink (l : TwLink) : Str :=
  (if l.hostX then xHost else twitterHost) ++
    (l.user ++ '/' :: (formChars l.form ++ '/' :: l.digits))

/-- A message text consisting of the given links, each followed by a
newline. -/
def renderTextNL (links : List TwLink) : Str :=
  links.flatMap fun l => renderLink l ++ '\n' :: []

/-! #### Deduplication facts -/

theorem dedupAux_sublist (seen : List Str) (l : List Str) :
    List.Sublist (dedupAux seen l) l := by
  induction l generalizing seen with
  | nil => exact List.Sublist.refl []
  | cons x xs ih =>
    unfold dedupAux
    by_cases hx : x ∈ seen
    · rw [if_pos hx]
      exact (ih seen).cons x
    · rw [if_neg hx]
      exact (ih (x :: seen)).cons₂ x

theorem dedupAux_not_seen (seen : List Str) (l : List Str) :
    ∀ x ∈ dedupAux seen l, x ∉ seen := by
  induction l generalizing seen with
  | nil => intro x hx; cases hx
  | cons y ys ih =>
    intro x hx
    unfold dedupAux at hx
    by_cases hy : y ∈ seen
    · rw [if_pos hy] at hx
      exact ih seen x hx
    · rw [if_neg hy] at hx
      rcases List.mem_cons.mp hx with h | h
      · rw [h]; exact hy
      · intro hseen
        exact ih (y :: seen) x h (List.mem_cons_of_mem y hseen)

theorem dedupAux_nodup (seen : List Str) (l : List Str) :
    (dedupAux seen l).Nodup := by
  induction l generalizing seen with
  | nil => exact List.nodup_nil
  | cons y ys ih =>
    unfold dedupAux
    by_cases hy : y ∈ seen
    · rw [if_pos hy]; exact ih seen
    · rw [if_neg hy]
      refine List.nodup_cons.mpr ⟨?_, ih (y :: seen)⟩
      intro hmem
      exact dedupAux_not_seen (y :: seen) ys y hmem (List.mem_cons_self y seen)

theorem mem_dedupAux (seen : List Str) (l : List Str) (x : Str) :
    x ∈ dedupAux seen l ↔ (x ∈ l ∧ x ∉ seen) := by
  induction l generalizing seen with
  | nil => simp [dedupAux]
  | cons y ys ih =>
    unfold dedupAux
    by_cases hy : y ∈ seen
    · rw [if_pos hy, ih seen]
      constructor
      · rintro ⟨h1, h2⟩
        exact ⟨List.mem_cons_of_mem y h1, h2⟩
      · rintro ⟨h1, h2⟩
        rcases List.mem_cons.mp h1 with h | h
        · exact absurd (h ▸ hy) h2
        · exact ⟨h, h2⟩
    · rw [if_neg hy]
      constructor
      · intro h
        rcases List.mem_cons.mp h with h | h
        · exact ⟨h ▸ List.mem_cons_self y ys, h ▸ hy⟩
        · rcases (ih (y :: seen)).mp h with ⟨h1, h2⟩
          exact ⟨List.mem_cons_of_mem y h1,
            fun hs => h2 (List.mem_cons_of_mem y hs)⟩
      · rintro ⟨h1, h2⟩
        rcases List.mem_cons.mp h1 with h | h
        · exact h ▸ List.mem_cons_self y _
        · by_cases hxy : x = y
          · exact hxy ▸ List.mem_cons_self y _
          · exact List.mem_cons_of_mem y ((ih (y :: seen)).mpr
              ⟨h, fun hs => (List.mem_cons.mp hs).elim hxy h2⟩)

/-! #### Character and matcher facts -/

theorem isDigit_ne (c : Char) (h : c.isDigit = true) :
    c ≠ 'w' ∧ c ≠ 's' ∧ c ≠ '/' ∧ c ≠ '\n' := by
  refine ⟨?_, ?_, ?_, ?_⟩ <;> intro he <;> rw [he] at h <;> exact absurd h (by decide)

theorem isAlnumU_ne (c : Char) (h : isAlnumU c = true) : c ≠ '/' ∧ c ≠ '\n' := by
  refine ⟨?_, ?_⟩ <;> intro he <;> rw [he] at h <;> exact absurd h (by decide)

theorem formChars_ne (f : PathForm) : ∀ c ∈ formChars f, c ≠ '/' ∧ c ≠ '\n' := by
  cases f <;> decide

theorem stripPre_self_append (p r : Str) : stripPre p (p ++ r) = some r := by
  induction p with
  | nil => rfl
  | cons c cs ih => simp [stripPre, ih]

theorem stripPre_head_ne (p : Char) (ps : Str) (c : Char) (cs : Str) (h : p ≠ c) :
    stripPre (p :: ps) (c :: cs) = none := by
  simp [stripPre, h]

theorem dotSpan_append_nl : ∀ (A suf : Str), (∀ c ∈ A, c ≠ '\n') → ∀ k : Nat,
    dotSpan k (A ++ '\n' :: suf) =
      if k ≤ A.length then some (A.drop k ++ '\n' :: suf) else none := by
  intro A
  induction A with
  | nil =>
    intro suf _ k
    cases k <;> simp [dotSpan]
  | cons a A ih =>
    intro suf hA k
    cases k with
    | zero => simp [dotSpan]
    | succ k =>
      have ha : a ≠ '\n' := hA a (List.mem_cons_self _ _)
      have ih2 := ih suf (fun c hc => hA c (List.mem_cons_of_mem _ hc)) k
      simp only [List.cons_append, dotSpan, if_neg ha, List.length_cons,
        Nat.add_le_add_iff_right, List.drop_succ_cons]
      exact ih2

theorem takeDigitsUpTo_exact : ∀ (D : Str) (n : Nat) (suf : Str),
    (∀ c ∈ D, c.isDigit = true) → D.length ≤ n →
    (∀ c cs, suf = c :: cs → c.isDigit = false) →
    takeDigitsUpTo n (D ++ suf) = (D, suf) := by
  intro D
  induction D with
  | nil =>
    intro n suf _ _ hs
    cases suf with
    | nil => cases n <;> rfl
    | cons c cs =>
      have hc := hs c cs rfl
      cases n with
      | zero => rfl
      | succ n => simp [takeDigitsUpTo, hc]
  | cons d D ih =>
    intro n suf hD hn hs
    cases n with
    | zero => simp at hn
    | succ n =>
      have hd : d.isDigit = true := hD d (List.mem_cons_self _ _)
      have ih2 := ih n suf (fun c hc => hD c (List.mem_cons_of_mem _ hc))
        (by simpa using hn) hs
      simp [takeDigitsUpTo, hd, ih2]

theorem tryDigits_exact (D t : Str) (hD : ∀ c ∈ D, c.isDigit = true) (hne : D ≠ [])
    (hlen : D.length ≤ 20) :
    tryDigits (D ++ '\n' :: t) = some (D, D.length) := by
  unfold tryDigits
  rw [takeDigitsUpTo_exact D 20 ('\n' :: t) hD hlen
    (fun c cs hc => by cases hc; decide)]
  simp [List.isEmpty_iff, hne]

theorem tryForm_head_ne (c : Char) (r : Str) (h : c ≠ '/') : tryForm (c :: r) = none := by
  simp [tryForm, h]

theorem tryForm_slash (r : Str) :
    tryForm ('/' :: r) = (tryAlt r).map fun dn => (dn.1, 1 + dn.2) := by
  simp [tryForm]

theorem tryAlt_digit_head (d : Char) (r : Str) (hd : d.isDigit = true) :
    tryAlt (d :: r) = none := by
  have h1 : ¬(('w' : Char) = d) := fun he => (isDigit_ne d hd).1 he.symm
  have h2 : ¬(('s' : Char) = d) := fun he => (isDigit_ne d hd).2.1 he.symm
  simp [tryAlt, tryAlt2, tryAlt3, webSlash, statusesSlash, statusSlash, stripPre, h1, h2]

theorem tryAlt_form (f : PathForm) (D t : Str) (hD : ∀ c ∈ D, c.isDigit = true)
    (hne : D ≠ []) (hlen : D.length ≤ 20) :
    tryAlt (formChars f ++ '/' :: (D ++ '\n' :: t)) =
      some (D, (formChars f).length + 1 + D.length) := by
  cases f
  case web =>
    have he : formChars .web ++ '/' :: (D ++ '\n' :: t) = webSlash ++ (D ++ '\n' :: t) := rfl
    rw [he]
    unfold tryAlt
    rw [stripPre_self_append]
    simp [tryDigits_exact D t hD hne hlen, formChars]
  case statuses =>
    simp +decide [tryAlt, tryAlt2, webSlash, statusesSlash, formChars, stripPre,
      tryDigits_exact D t hD hne hlen]
  case status =>
    simp +decide [tryAlt, tryAlt2, tryAlt3, webSlash, statusesSlash, statusSlash,
      formChars, stripPre, tryDigits_exact D t hD hne hlen]

/-- Unfolding equation for `tryMid` at a successor fuel. -/
theorem tryMid_succ (s : Str) (k : Nat) :
    tryMid s (k + 1) = match dotSpan (k + 1) s with
      | some rest =>
        match tryForm rest with
        | some dn => some (dn.1, (k + 1) + dn.2)
        | none => tryMid s k
      | none => tryMid s k := rfl

/-- For a span length strictly between the username and the end of the
link body, the rest of the pattern cannot match: the character after the
span is not a `/`, or the path-form alternation fails on the digits. -/
theorem tryForm_fail_mid (user F D t : Str)
    (hF : ∀ c ∈ F, c ≠ '/')
    (hD : ∀ c ∈ D, c.isDigit = true) (hDne : D ≠ [])
    (k : Nat) (hk1 : user.length < k)
    (hk2 : k ≤ (user ++ '/' :: (F ++ '/' :: D)).length) :
    tryForm ((user ++ '/' :: (F ++ '/' :: D)).drop k ++ '\n' :: t) = none := by
  have hdropA : (user ++ '/' :: (F ++ '/' :: D)).drop k =
      (F ++ '/' :: D).drop (k - user.length - 1) := by
    obtain ⟨m, hm⟩ : ∃ m, k - user.length = m + 1 := ⟨k - user.length - 1, by omega⟩
    calc (user ++ '/' :: (F ++ '/' :: D)).drop k
        = (user ++ '/' :: (F ++ '/' :: D)).drop (user.length + (k - user.length)) := by
          congr 1
          omega
      _ = ('/' :: (F ++ '/' :: D)).drop (k - user.length) := List.drop_append _
      _ = ('/' :: (F ++ '/' :: D)).drop (m + 1) := by rw [hm]
      _ = (F ++ '/' :: D).drop m := List.drop_succ_cons
      _ = (F ++ '/' :: D).drop (k - user.length - 1) := by
          rw [show m = k - user.length - 1 by omega]
  rw [hdropA]
  rcases Nat.lt_trichotomy (k - user.length - 1) F.length with hmF | hmF | hmF
  · have hdropB : (F ++ '/' :: D).drop (k - user.length - 1) =
        F.drop (k - user.length - 1) ++ '/' :: D :=
      List.drop_append_of_le_length (le_of_lt hmF)
    rw [hdropB, List.drop_eq_getElem_cons hmF]
    simp only [List.cons_append]
    exact tryForm_head_ne _ _ (hF _ (List.getElem_mem hmF))
  · have hdropB : (F ++ '/' :: D).drop (k - user.length - 1) = '/' :: D := by
      rw [hmF]
      exact List.drop_left F ('/' :: D)
    rw [hdropB]
    obtain ⟨d, D2, hD2⟩ := List.exists_cons_of_ne_nil hDne
    subst hD2
    simp only [List.cons_append]
    rw [tryForm_slash, tryAlt_digit_head d _ (hD d (List.mem_cons_self _ _))]
    rfl
  · have hdropB : (F ++ '/' :: D).drop (k - user.length - 1) =
        D.drop (k - user.length - 1 - F.length - 1) := by
      obtain ⟨m, hm⟩ : ∃ m, k - user.length - 1 - F.length = m + 1 :=
        ⟨k - user.length - 1 - F.length - 1, by omega⟩
      calc (F ++ '/' :: D).drop (k - user.length - 1)
          = (F ++ '/' :: D).drop (F.length + (k - user.length - 1 - F.length)) := by
            congr 1
            omega
        _ = ('/' :: D).drop (k - user.length - 1 - F.length) := List.drop_append _
        _ = ('/' :: D).drop (m + 1) := by rw [hm]
        _ = D.drop m := List.drop_succ_cons
        _ = D.drop (k - user.length - 1 - F.length - 1) := by
            rw [show m = k - user.length - 1 - F.length - 1 by omega]
    rw [hdropB]
    rcases Nat.lt_or_ge (k - user.length - 1 - F.length - 1) D.length with hjD | hjD
    · rw [List.drop_eq_getElem_cons hjD]
      simp only [List.cons_append]
      exact tryForm_head_ne _ _ ((isDigit_ne _ (hD _ (List.getElem_mem hjD))).2.2.1)
    · rw [List.drop_eq_nil_of_le hjD, List.nil_append]
      exact tryForm_head_ne _ _ (by decide)

/-- The greedy `.{1,15}` loop, started at or above the username length on a
link body followed by a newline, always lands on the true parse: every
longer span fails and the span equal to the username length succeeds. -/
theorem tryMid_render (user F D t : Str)
    (hune : user ≠ []) (hu : ∀ c ∈ user, isAlnumU c = true)
    (hFne : ∀ c ∈ F, c ≠ '/') (hFnl : ∀ c ∈ F, c ≠ '\n')
    (hD : ∀ c ∈ D, c.isDigit = true) (hDne : D ≠ [])
    (hAlt : tryAlt (F ++ '/' :: (D ++ '\n' :: t)) = some (D, F.length + 1 + D.length)) :
    ∀ j, tryMid ((user ++ '/' :: (F ++ '/' :: D)) ++ '\n' :: t) (user.length + j) =
      some (D, user.length + (1 + (F.length + (1 + D.length)))) := by
  have noNL : ∀ c ∈ user ++ '/' :: (F ++ '/' :: D), c ≠ '\n' := by
    intro c hc
    rcases List.mem_append.mp hc with hc | hc
    · exact (isAlnumU_ne c (hu c hc)).2
    · rcases List.mem_cons.mp hc with hc | hc
      · rw [hc]; decide
      · rcases List.mem_append.mp hc with hc | hc
        · exact hFnl c hc
        · rcases List.mem_cons.mp hc with hc | hc
          · rw [hc]; decide
          · exact (isDigit_ne c (hD c hc)).2.2.2
  have hAlen : (user ++ '/' :: (F ++ '/' :: D)).length =
      user.length + (1 + (F.length + (1 + D.length))) := by
    simp [List.length_append]
    omega
  intro j
  induction j with
  | zero =>
    obtain ⟨u1, hu1⟩ : ∃ u1, user.length = u1 + 1 := by
      cases user with
      | nil => exact absurd rfl hune
      | cons a l => exact ⟨l.length, by simp⟩
    rw [Nat.add_zero, hu1, tryMid_succ,
      dotSpan_append_nl _ t noNL (u1 + 1)]
    rw [if_pos (by rw [hAlen]; omega)]
    have hdrop : (user ++ '/' :: (F ++ '/' :: D)).drop (u1 + 1) = '/' :: (F ++ '/' :: D) := by
      rw [← hu1]
      exact List.drop_left _ _
    rw [hdrop]
    simp only [List.cons_append, tryForm_slash, List.append_assoc, hAlt,
      Option.map_some']
    simp only [Option.some.injEq, Prod.mk.injEq, true_and]
    omega
  | succ j ih =>
    rw [show user.length + (j + 1) = (user.length + j) + 1 from rfl, tryMid_succ,
      dotSpan_append_nl _ t noNL _]
    by_cases hk : user.length + j + 1 ≤ (user ++ '/' :: (F ++ '/' :: D)).length
    · rw [if_pos hk]
      have hfail := tryForm_fail_mid user F D t hFne hD hDne
        (user.length + j + 1) (by omega) hk
      simp only [hfail]
      exact ih
    · rw [if_neg hk]
      exact ih

/-- The whole pattern, attempted at the start of a rendered link followed by
a newline, matches exactly the link and captures its digits. -/
theorem matchFrom_link (l : TwLink) (t : Str) (hl : linkOK l) :
    matchFrom (renderLink l ++ '\n' :: t) = some (l.digits, (renderLink l).length) := by
  obtain ⟨hune, hulen, hu, hDne, hDlen, hD⟩ := hl
  have hAlt := tryAlt_form l.form l.digits t hD hDne hDlen
  have hFne : ∀ c ∈ formChars l.form, c ≠ '/' := fun c hc => (formChars_ne l.form c hc).1
  have hFnl : ∀ c ∈ formChars l.form, c ≠ '\n' := fun c hc => (formChars_ne l.form c hc).2
  have hmid := tryMid_render l.user (formChars l.form) l.digits t hune hu hFne hFnl
    hD hDne hAlt (15 - l.user.length)
  rw [show l.user.length + (15 - l.user.length) = 15 by omega] at hmid
  rcases hx : l.hostX with _ | _
  · have hr : renderLink l ++ '\n' :: t =
        twitterHost ++
          ((l.user ++ '/' :: (formChars l.form ++ '/' :: l.digits)) ++ '\n' :: t) := by
      simp [renderLink, hx, List.append_assoc]
    rw [hr]
    unfold matchFrom
    rw [stripPre_self_append]
    simp only [hmid, Option.map_some']
    have hlen : (renderLink l).length =
        12 + (l.user.length + (1 + ((formChars l.form).length + (1 + l.digits.length)))) := by
      simp [renderLink, hx, twitterHost, List.length_append]
      omega
    rw [hlen]
  · have hr : renderLink l ++ '\n' :: t =
        xHost ++
          ((l.user ++ '/' :: (formChars l.form ++ '/' :: l.digits)) ++ '\n' :: t) := by
      simp [renderLink, hx, List.append_assoc]
    rw [hr]
    unfold matchFrom
    have hstrip : stripPre twitterHost
        (xHost ++ ((l.user ++ '/' :: (formChars l.form ++ '/' :: l.digits)) ++ '\n' :: t)) =
        none := by
      rw [show xHost = 'x' :: ('.' :: 'c' :: 'o' :: 'm' :: '/' :: []) from rfl,
        show twitterHost =
          't' :: ('w' :: 'i' :: 't' :: 't' :: 'e' :: 'r' :: '.' :: 'c' :: 'o' :: 'm' :: '/' :: [])
          from rfl]
      simp only [List.cons_append]
      exact stripPre_head_ne _ _ _ _ (by decide)
    simp only [hstrip]
    rw [stripPre_self_append]
    simp only [hmid, Option.map_some']
    have hlen : (renderLink l).length =
        6 + (l.user.length + (1 + ((formChars l.form).length + (1 + l.digits.length)))) := by
      simp [renderLink, hx, xHost, List.length_append]
      omega
    rw [hlen]

theorem matchFrom_pos (s : Str) (d : Str) (n : Nat) (h : matchFrom s = some (d, n)) :
    1 ≤ n := by
  unfold matchFrom at h
  rcases h1 : stripPre twitterHost s with _ | r <;> rw [h1] at h
  · rcases h2 : stripPre xHost s with _ | r2 <;> rw [h2] at h
    · simp at h
    · simp only [Option.map_eq_some'] at h
      obtain ⟨a, _, ha⟩ := h
      have : 6 + a.2 = n := congrArg Prod.snd ha
      omega
  · simp only [Option.map_eq_some'] at h
    obtain ⟨a, _, ha⟩ := h
    have : 12 + a.2 = n := congrArg Prod.snd ha
    omega

theorem matchFrom_nl (rest : Str) : matchFrom ('\n' :: rest) = none := by
  have h1 : stripPre twitterHost ('\n' :: rest) = none := by
    rw [show twitterHost =
      't' :: ('w' :: 'i' :: 't' :: 't' :: 'e' :: 'r' :: '.' :: 'c' :: 'o' :: 'm' :: '/' :: [])
      from rfl]
    exact stripPre_head_ne _ _ _ _ (by decide)
  have h2 : stripPre xHost ('\n' :: rest) = none := by
    rw [show xHost = 'x' :: ('.' :: 'c' :: 'o' :: 'm' :: '/' :: []) from rfl]
    exact stripPre_head_ne _ _ _ _ (by decide)
  simp [matchFrom, h1, h2]

theorem findAllFuel_succ_ne_nil (fuel : Nat) (s : Str) (hs : s ≠ []) :
    findAllFuel (fuel + 1) s =
      match matchFrom s with
      | some dn => dn.1 :: findAllFuel fuel (s.drop dn.2)
      | none => findAllFuel fuel s.tail := by
  obtain ⟨c, r, rfl⟩ := List.exists_cons_of_ne_nil hs
  rfl

theorem findAllFuel_stable : ∀ (f : Nat) (s : Str), s.length ≤ f →
    findAllFuel (f + 1) s = findAllFuel f s := by
  intro f
  induction f with
  | zero =>
    intro s hs
    rw [List.eq_nil_of_length_eq_zero (Nat.le_zero.mp hs)]
    rfl
  | succ f ih =>
    intro s hs
    cases s with
    | nil => rfl
    | cons c rest =>
      rw [findAllFuel_succ_ne_nil (f + 1) (c :: rest) (by simp),
        findAllFuel_succ_ne_nil f (c :: rest) (by simp)]
      rcases hm : matchFrom (c :: rest) with _ | dn
      · show findAllFuel (f + 1) (c :: rest).tail = findAllFuel f (c :: rest).tail
        simp only [List.tail_cons]
        apply ih
        simp only [List.length_cons] at hs
        omega
      · obtain ⟨dd, nn⟩ := dn
        have hpos := matchFrom_pos (c :: rest) dd nn hm
        show dd :: findAllFuel (f + 1) ((c :: rest).drop nn) =
          dd :: findAllFuel f ((c :: rest).drop nn)
        congr 1
        apply ih
        rw [List.length_drop]
        simp only [List.length_cons] at hs ⊢
        omega

theorem findAllFuel_add (k f : Nat) (s : Str) (h : s.length ≤ f) :
    findAllFuel (f + k) s = findAllFuel f s := by
  induction k with
  | zero => rfl
  | succ k ih =>
    rw [show f + (k + 1) = (f + k) + 1 from rfl,
      findAllFuel_stable (f + k) s (by omega), ih]

theorem findAllFuel_of_le (f g : Nat) (s : Str) (hf : s.length ≤ f) (hg : s.length ≤ g) :
    findAllFuel f s = findAllFuel g s := by
  rcases Nat.le_total f g with hle | hle
  · rw [show g = f + (g - f) by omega, findAllFuel_add (g - f) f s hf]
  · rw [show f = g + (f - g) by omega, findAllFuel_add (f - g) g s hg]

theorem renderTextNL_cons (l : TwLink) (ls : List TwLink) :
    renderTextNL (l :: ls) = renderLink l ++ '\n' :: renderTextNL ls := by
  simp [renderTextNL, List.flatMap_cons, List.append_assoc]

theorem renderLink_ne_nil (l : TwLink) : renderLink l ≠ [] := by
  rcases hb : l.hostX with _ | _ <;> simp [renderLink, hb, twitterHost, xHost]

/-- Scanning the tweet-id pattern over a newline-separated rendering of
valid links yields exactly the digit groups, in order. -/
theorem findAllFuel_render : ∀ (links : List TwLink) (fuel : Nat),
    (∀ l ∈ links, linkOK l) → (renderTextNL links).length ≤ fuel →
    findAllFuel fuel (renderTextNL links) = links.map TwLink.digits := by
  intro links
  induction links with
  | nil =>
    intro fuel _ _
    cases fuel <;> rfl
  | cons l ls ih =>
    intro fuel hOK hfuel
    have hOKl : linkOK l := hOK l (List.mem_cons_self _ _)
    have hOKls : ∀ x ∈ ls, linkOK x := fun x hx => hOK x (List.mem_cons_of_mem _ hx)
    rw [renderTextNL_cons] at hfuel ⊢
    have hflen : (renderLink l).length + ((renderTextNL ls).length + 1) ≤ fuel := by
      simpa [List.length_append] using hfuel
    have hlen1 : 1 ≤ (renderLink l).length := by
      obtain ⟨c, r, hcr⟩ := List.exists_cons_of_ne_nil (renderLink_ne_nil l)
      rw [hcr]
      simp
    obtain ⟨f1, rfl⟩ : ∃ f1, fuel = f1 + 1 := ⟨fuel - 1, by omega⟩
    rw [findAllFuel_succ_ne_nil f1 (renderLink l ++ '\n' :: renderTextNL ls) (by
      obtain ⟨c, r, hcr⟩ := List.exists_cons_of_ne_nil (renderLink_ne_nil l)
      rw [hcr]
      simp)]
    rw [matchFrom_link l (renderTextNL ls) hOKl]
    show l.digits ::
        findAllFuel f1 ((renderLink l ++ '\n' :: renderTextNL ls).drop (renderLink l).length) =
      (l :: ls).map TwLink.digits
    rw [List.drop_left]
    obtain ⟨f2, rfl⟩ : ∃ f2, f1 = f2 + 1 := ⟨f1 - 1, by omega⟩
    rw [findAllFuel_succ_ne_nil f2 ('\n' :: renderTextNL ls) (by simp), matchFrom_nl]
    show l.digits :: findAllFuel f2 ('\n' :: renderTextNL ls).tail = (l :: ls).map TwLink.digits
    simp only [List.tail_cons]
    rw [List.map_cons]
    congr 1
    exact ih f2 hOKls (by omega)

/-- C4 amended: on any text that is a sequence of valid post links each
followed by a newline (so that the greedy 15-character middle of one link
cannot reach into the next one, which the counterexample shows it otherwise
can), `extract_tweet_ids` returns exactly the unique ids in first-appearance
order — duplicates collapsed, `none` when the list is empty.  The resolver
is the one for which every `t.co` resolution fails (resolution failure only
skips that link's contribution). -/
theorem extract_tweet_ids_render (links : List TwLink) (h : ∀ l ∈ links, linkOK l) :
    findAll (renderTextNL links) = links.map TwLink.digits ∧
    extract_tweet_ids (fun _ => none) (renderTextNL links) =
      (if (dedupFirst (links.map TwLink.digits)).isEmpty then none
       else some (dedupFirst (links.map TwLink.digits))) ∧
    (dedupFirst (links.map TwLink.digits)).Nodup ∧
    List.Sublist (dedupFirst (links.map TwLink.digits)) (links.map TwLink.digits) ∧
    (∀ x, x ∈ dedupFirst (links.map TwLink.digits) ↔ x ∈ links.map TwLink.digits) ∧
    (links = [] → extract_tweet_ids (fun _ => none) (renderTextNL links) = none) := by
  have hfind : findAll (renderTextNL links) = links.map TwLink.digits :=
    findAllFuel_render links _ h (le_refl _)
  have hfoldl : ∀ (L : List Str) (acc : Str),
      L.foldl (fun acc2 l2 => match (fun (_ : Str) => (none : Option Str)) l2 with
        | some u => acc2 ++ '\n' :: u
        | none => acc2) acc = acc := by
    intro L
    induction L with
    | nil => intro acc; rfl
    | cons x L ihL => intro acc; rw [List.foldl_cons]; exact ihL acc
  have hextract : extract_tweet_ids (fun _ => none) (renderTextNL links) =
      (if (dedupFirst (links.map TwLink.digits)).isEmpty then none
       else some (dedupFirst (links.map TwLink.digits))) := by
    show (let ids := findAll (renderTextNL links ++
        (tcoFindAllFuel (renderTextNL links).length (renderTextNL links)).foldl
          (fun acc l2 => match (fun (_ : Str) => (none : Option Str)) l2 with
            | some u => acc ++ '\n' :: u
            | none => acc) [])
      let ids2 := dedupFirst ids
      if ids2.isEmpty then none else some ids2) = _
    rw [hfoldl, List.append_nil, hfind]
  refine ⟨hfind, hextract, dedupAux_nodup [] _, dedupAux_sublist [] _, ?_, ?_⟩
  · intro x
    unfold dedupFirst
    rw [mem_dedupAux]
    simp
  · intro hnil
    rw [hextract, hnil]
    rfl

/-- Counterexample to C4 as stated: the text
`"x.com/u/web/1 x.com/v/web/2"` contains two distinct valid post links, yet
extraction returns only `["2"]` — the greedy `.{1,15}` of the pattern
swallows the first link and the following space, so the single match spans
both links and captures only the second id.  The claim demands
`["1", "2"]`. -/
theorem extract_tweet_ids_counterexample :
    "x.com/u/web/1 x.com/v/web/2".toList =
      renderLink ⟨true, 'u' :: [], .web, '1' :: []⟩ ++
        ' ' :: renderLink ⟨true, 'v' :: [], .web, '2' :: []⟩ ∧
    linkOK ⟨true, 'u' :: [], .web, '1' :: []⟩ ∧
    linkOK ⟨true, 'v' :: [], .web, '2' :: []⟩ ∧
    (⟨true, 'u' :: [], .web, '1' :: []⟩ : TwLink) ≠ ⟨true, 'v' :: [], .web, '2' :: []⟩ ∧
    dedupFirst ([(⟨true, 'u' :: [], .web, '1' :: []⟩ : TwLink),
        ⟨true, 'v' :: [], .web, '2' :: []⟩].map TwLink.digits) =
      [('1' :: []), ('2' :: [])] ∧
    extract_tweet_ids (fun _ => none) ("x.com/u/web/1 x.com/v/web/2".toList) =
      some [('2' :: [])] := by
  refine ⟨by decide, by decide, by decide, by decide, by decide, by decide⟩

/-- Witness for the amended C4 on two concrete newline-separated links. -/
theorem extract_tweet_ids_render_witness :
    (∀ l ∈ [(⟨true, 'u' :: [], .web, '1' :: []⟩ : TwLink),
        ⟨false, 'a' :: 'b' :: [], .statuses, '9' :: []⟩], linkOK l) ∧
    extract_tweet_ids (fun _ => none)
        (renderTextNL [(⟨true, 'u' :: [], .web, '1' :: []⟩ : TwLink),
          ⟨false, 'a' :: 'b' :: [], .statuses, '9' :: []⟩]) =
      (if (dedupFirst ([(⟨true, 'u' :: [], .web, '1' :: []⟩ : TwLink),
            ⟨false, 'a' :: 'b' :: [], .statuses, '9' :: []⟩].map TwLink.digits)).isEmpty
       then none
       else some (dedupFirst ([(⟨true, 'u' :: [], .web, '1' :: []⟩ : TwLink),
            ⟨false, 'a' :: 'b' :: [], .statuses, '9' :: []⟩].map TwLink.digits))) :=
  ⟨by decide,
   (extract_tweet_ids_render [⟨true, 'u' :: [], .web, '1' :: []⟩,
      ⟨false, 'a' :: 'b' :: [], .statuses, '9' :: []⟩] (by decide)).2.1⟩

end Twvid
